import Mathlib

/-!
# A shallow embedding of the sbJSON library

This file embeds, in Lean 4, the parts of `sbJSON.c` / `sbJSON_Utils.c` that
the specification's claims are about: the value-tree data model, structural
comparison, tree mutation, the recursive-descent parser, the printer, the
RFC 6901 pointer resolver, the RFC 6902 patch applier and the RFC 7396 merge
patch engine.

Modelling conventions:

* C strings are `CStr := List Nat`, the bytes strictly before the terminating
  NUL; a `char *` that may be NULL is `Option CStr`.
* The node struct is mirrored field by field; the sibling linked list
  (`child`/`next`/`prev`, with the head's `prev` repurposed as a tail pointer)
  is rendered as the `List` of siblings, which is the abstraction the list
  invariants maintain.  Interior-pointer mutation becomes functional update.
* `double` is kept at the bit level (`Dbl`), because the code stores `int64_t`
  and `double` in one union and reads members that were not last stored; the
  int64/double reinterpretation is well defined and is modelled exactly, with
  exact rational arithmetic for rounding, formatting and decimal conversion.
* Loops whose progress is through a buffer index are given a `fuel` argument
  (structural recursion); wrappers pass a bound that exceeds any possible
  number of steps for the given input, so the embedded function agrees with
  the C loop on every input it is applied to.
* Allocation is assumed to succeed (the allocator hooks are out of scope),
  and code paths that dereference a NULL or indeterminate pointer are
  modelled as an explicit `Except`-style crash where a claim depends on them.
-/

/-- A C `unsigned char` value `0 .. 255`. -/
abbrev Byte := Nat

/-- A C string: the bytes strictly before the terminating NUL. -/
abbrev CStr := List Byte

/-- The byte of an ASCII character, for writing concrete inputs. -/
def ch (c : Char) : Byte := c.toNat

/-- The ASCII bytes of a Lean string literal, for writing concrete inputs. -/
def strBytes (s : String) : CStr := s.data.map Char.toNat

/-! ## Exact rational scratch arithmetic

Unnormalised fractions over `Int`/`Nat`; no gcd reduction, so every operation
is plain machine-integer arithmetic that the kernel can evaluate. -/

/-- An unnormalised rational `n / d`; all constructed values have `d > 0`. -/
structure Q where
  n : Int
  d : Nat

/-- `a ≤ b` on unnormalised rationals (cross multiplication). -/
def Q.le (a b : Q) : Bool := a.n * (b.d : Int) ≤ b.n * (a.d : Int)

/-- `a < b` on unnormalised rationals. -/
def Q.lt (a b : Q) : Bool := a.n * (b.d : Int) < b.n * (a.d : Int)

/-- `a = b` on unnormalised rationals. -/
def Q.eq (a b : Q) : Bool := a.n * (b.d : Int) = b.n * (a.d : Int)

/-- Exact difference. -/
def Q.sub (a b : Q) : Q := ⟨a.n * (b.d : Int) - b.n * (a.d : Int), a.d * b.d⟩

/-- Exact product. -/
def Q.mul (a b : Q) : Q := ⟨a.n * b.n, a.d * b.d⟩

/-- `⌊log b (n)⌋` by repeated division, with explicit fuel (callers pass a
bound larger than any possible number of digits). -/
def logFuel (b : Nat) : Nat → Nat → Nat
  | 0, _ => 0
  | _, 0 => 0
  | fuel + 1, n => if n < b then 0 else 1 + logFuel b fuel (n / b)

/-- Round `a / b` (with `b > 0`) to the nearest integer, ties to even. -/
def rdivNE (a b : Nat) : Nat :=
  let q := a / b
  let r := a % b
  if 2 * r < b then q
  else if b < 2 * r then q + 1
  else if q % 2 = 0 then q else q + 1

/-! ## IEEE-754 binary64 at the bit level -/

/-- An IEEE-754 binary64 datum, as its 64-bit object representation.  This is
the faithful model of C `double` here because the code stores `int64_t` and
`double` in a single union and sometimes reads the member that was not last
stored. -/
structure Dbl where
  bits : Nat
deriving DecidableEq

/-- The sign bit. -/
def Dbl.signBit (x : Dbl) : Bool := x.bits / 2 ^ 63 % 2 = 1

/-- The 11-bit biased exponent field. -/
def Dbl.biasedExp (x : Dbl) : Nat := x.bits / 2 ^ 52 % 2 ^ 11

/-- The 52-bit fraction field. -/
def Dbl.frac (x : Dbl) : Nat := x.bits % 2 ^ 52

/-- C `isnan`. -/
def Dbl.isNan (x : Dbl) : Bool := x.biasedExp = 2047 && x.frac ≠ 0

/-- C `isinf`. -/
def Dbl.isInf (x : Dbl) : Bool := x.biasedExp = 2047 && x.frac = 0

/-- The exact magnitude of a finite binary64, as a fraction
`mag / 2 ^ 1074`. -/
def Dbl.magQ (x : Dbl) : Nat × Nat :=
  if x.biasedExp = 0 then (x.frac, 2 ^ 1074)
  else ((2 ^ 52 + x.frac) * 2 ^ (x.biasedExp - 1), 2 ^ 1074)

/-- The exact signed value of a finite binary64. -/
def Dbl.finQ (x : Dbl) : Q :=
  let m := x.magQ
  ⟨if x.signBit then -(m.1 : Int) else (m.1 : Int), m.2⟩

/-- Bit pattern of +infinity. -/
def dblInfBits : Nat := 2047 * 2 ^ 52

/-- The quiet NaN produced by the C `NAN` macro. -/
def dblNan : Dbl := ⟨2047 * 2 ^ 52 + 2 ^ 51⟩

/-- Round the exact nonnegative rational `a / b` (`b > 0`) to the nearest
binary64 (ties to even), returning the 63 magnitude bits: `0` on underflow to
zero, the infinity pattern on overflow. -/
def roundMagBits (a b : Nat) : Nat :=
  if a = 0 then 0
  else
    -- binary exponent e with 2 ^ e ≤ a / b < 2 ^ (e + 1)
    let e : Int :=
      if b ≤ a then (logFuel 2 4000 (a / b) : Int)
      else
        let L := logFuel 2 4000 (b / a)
        if b ≤ a * 2 ^ L then -(L : Int) else -((L : Int) + 1)
    -- precision of the binade (subnormals bottom out at 2 ^ (-1074))
    let prec : Int := max (e - 52) (-1074)
    let a' := a * 2 ^ (Int.toNat (-prec))
    let b' := b * 2 ^ (Int.toNat prec)
    let s := rdivNE a' b'
    let s2 := if s = 2 ^ 53 then 2 ^ 52 else s
    let prec2 := if s = 2 ^ 53 then prec + 1 else prec
    if s2 = 0 then 0
    else if s2 < 2 ^ 52 then s2        -- subnormal (prec2 = -1074)
    else
      let expo := prec2 + 1075
      if 2047 ≤ expo then dblInfBits
      else Int.toNat expo * 2 ^ 52 + (s2 - 2 ^ 52)

/-- Assemble sign and magnitude bits. -/
def mkDbl (neg : Bool) (mag : Nat) : Dbl :=
  ⟨(if neg then 2 ^ 63 else 0) + mag⟩

/-- Round a signed exact rational to the nearest binary64 (ties to even).
A negative value rounding to zero yields `-0.0`, as IEEE requires. -/
def roundQ (q : Q) : Dbl :=
  mkDbl (q.n < 0) (roundMagBits q.n.natAbs q.d)

/-- The C cast `(double)` of an `int64_t` value. -/
def i64ToDbl (n : Int) : Dbl := roundQ ⟨n, 1⟩

/-- The bit pattern of an `int64_t` (two's complement). -/
def i64Bits (n : Int) : Nat := (n % 2 ^ 64).toNat

/-- An `int64_t` read from a 64-bit pattern (two's complement). -/
def bitsToI64 (b : Nat) : Int :=
  if b % 2 ^ 64 < 2 ^ 63 then (b % 2 ^ 64 : Int) else (b % 2 ^ 64 : Int) - 2 ^ 64

/-- C `fabs`: clear the sign bit. -/
def fabsD (x : Dbl) : Dbl := ⟨x.bits % 2 ^ 63⟩

/-- C `==` on doubles: false when a NaN is involved, otherwise value
comparison (so `+0.0 == -0.0` and `inf == inf`). -/
def dblEq (x y : Dbl) : Bool :=
  if x.isNan || y.isNan then false
  else
    match x.isInf, y.isInf with
    | true, true => x.signBit = y.signBit
    | true, false => false
    | false, true => false
    | false, false => Q.eq x.finQ y.finQ

/-- C `<=` on doubles: false when a NaN is involved. -/
def dblLe (x y : Dbl) : Bool :=
  if x.isNan || y.isNan then false
  else
    match x.isInf, y.isInf with
    | true, true => x.signBit = y.signBit || x.signBit
    | true, false => x.signBit
    | false, true => !y.signBit
    | false, false => Q.le x.finQ y.finQ

/-- C `>` on doubles: false when a NaN is involved. -/
def dblGt (x y : Dbl) : Bool :=
  if x.isNan || y.isNan then false else !(dblLe x y)

/-- IEEE subtraction: round the exact difference (the sign of a zero result
is immaterial to every use in this code, which compares the result). -/
def fpSub (x y : Dbl) : Dbl :=
  if x.isNan || y.isNan then dblNan
  else
    match x.isInf, y.isInf with
    | true, true => if x.signBit = y.signBit then dblNan else x
    | true, false => x
    | false, true => mkDbl (!y.signBit) dblInfBits
    | false, false => roundQ (Q.sub x.finQ y.finQ)

/-- IEEE multiplication: round the exact product (likewise, zero signs are
immaterial to the uses here). -/
def fpMul (x y : Dbl) : Dbl :=
  if x.isNan || y.isNan then dblNan
  else
    match x.isInf, y.isInf with
    | true, true => mkDbl (x.signBit != y.signBit) dblInfBits
    | true, false => if y.frac = 0 && y.biasedExp = 0 then dblNan
                     else mkDbl (x.signBit != y.signBit) dblInfBits
    | false, true => if x.frac = 0 && x.biasedExp = 0 then dblNan
                     else mkDbl (x.signBit != y.signBit) dblInfBits
    | false, false => roundQ (Q.mul x.finQ y.finQ)

/-- `DBL_EPSILON` = 2⁻⁵². -/
def DBL_EPSILON : Dbl := ⟨971 * 2 ^ 52⟩

/-! ## Decimal conversion (`sprintf %g`, `strtod`, `strtoll`)

These model the C library calls the code makes, at the precision glibc
delivers: correctly rounded decimal-to-binary and binary-to-decimal
conversion (round to nearest, ties to even). -/

/-- Most-significant-first decimal digits of `n` (at least one digit). -/
def natDigitsAux : Nat → Nat → List Byte → List Byte
  | 0, _, acc => acc
  | _ + 1, 0, acc => acc
  | fuel + 1, n, acc => natDigitsAux fuel (n / 10) ((48 + n % 10) :: acc)

/-- Decimal digit bytes of `n`, most significant first. -/
def natDigits (n : Nat) : List Byte :=
  if n = 0 then [48] else natDigitsAux 2000 n []

/-- Digits with trailing `'0'` bytes removed. -/
def stripZeros (ds : List Byte) : List Byte :=
  (ds.reverse.dropWhile (fun c => c = 48)).reverse

/-- The exponent part of `%g` scientific notation: `e±dd`, at least two
exponent digits. -/
def fmtExp (x : Int) : List Byte :=
  let ds := natDigits x.natAbs
  let ds := if ds.length < 2 then 48 :: ds else ds
  ch 'e' :: (if x < 0 then ch '-' else ch '+') :: ds

/-- `sprintf("%1.<prec>g", ·)` for a finite double, following C99 `%g`:
round to `prec` significant digits, use scientific style when the decimal
exponent `X` has `X < -4` or `prec ≤ X`, and strip trailing zeros. -/
def fmtG (prec : Nat) (x : Dbl) : CStr :=
  if x.isNan then strBytes "nan"
  else if x.isInf then
    (if x.signBit then [ch '-'] else []) ++ strBytes "inf"
  else
    let m := x.magQ
    let a := m.1
    let b := m.2
    let sgn : CStr := if x.signBit then [ch '-'] else []
    if a = 0 then sgn ++ [ch '0']
    else
      -- decimal exponent X with 10 ^ X ≤ a / b < 10 ^ (X + 1)
      let X : Int :=
        if b ≤ a then (logFuel 10 4000 (a / b) : Int)
        else
          let L := logFuel 10 4000 (b / a)
          if b ≤ a * 10 ^ L then -(L : Int) else -((L : Int) + 1)
      let e10 : Int := X - prec + 1
      let a' := a * 10 ^ (Int.toNat (-e10))
      let b' := b * 10 ^ (Int.toNat e10)
      let D := rdivNE a' b'
      let D2 := if D = 10 ^ prec then 10 ^ (prec - 1) else D
      let X2 : Int := if D = 10 ^ prec then X + 1 else X
      let digits := natDigits D2
      if X2 < -4 || (prec : Int) ≤ X2 then
        -- scientific style
        let stripped := stripZeros digits
        match stripped with
        | [] => sgn ++ [ch '0']   -- unreachable: D2 > 0
        | d0 :: rest =>
            sgn ++ (d0 :: (if rest = [] then [] else ch '.' :: rest))
              ++ fmtExp X2
      else if 0 ≤ X2 then
        -- fixed style, integer part of X2+1 digits
        let ip := digits.take (Int.toNat X2 + 1)
        let fp := stripZeros (digits.drop (Int.toNat X2 + 1))
        sgn ++ ip ++ (if fp = [] then [] else ch '.' :: fp)
      else
        -- fixed style, 0.00…digits
        let fp := stripZeros digits
        sgn ++ [ch '0', ch '.'] ++ List.replicate (Int.toNat (-X2) - 1) 48 ++ fp

/-- C `isspace` in the default locale. -/
def isSpaceB (c : Byte) : Bool :=
  c = 32 || c = 9 || c = 10 || c = 11 || c = 12 || c = 13

/-- ASCII decimal digit? -/
def isDigitB (c : Byte) : Bool := 48 ≤ c && c ≤ 57

/-- Value of a digit span, most significant first. -/
def digitsVal (ds : List Byte) : Nat :=
  ds.foldl (fun acc c => acc * 10 + (c - 48)) 0

/-- `strtoll(s, &end, 10)`: returns the value and the number of bytes
consumed (`0` when no conversion was performed, in which case `end == s`).
Out-of-range values are clamped to `INT64_MAX` / `INT64_MIN`. -/
def strtollModel (s : CStr) : Int × Nat :=
  let ws := s.takeWhile isSpaceB
  let s1 := s.drop ws.length
  let (neg, signLen) :=
    match s1 with
    | c :: _ => if c = ch '-' then (true, 1) else if c = ch '+' then (false, 1) else (false, 0)
    | [] => (false, 0)
  let ds := (s1.drop signLen).takeWhile isDigitB
  if ds = [] then (0, 0)
  else
    let v : Int := if neg then -(digitsVal ds : Int) else (digitsVal ds : Int)
    let v := if v < -(2 ^ 63) then -(2 ^ 63) else if (2 ^ 63 : Int) - 1 < v then 2 ^ 63 - 1 else v
    (v, ws.length + signLen + ds.length)

/-- `strtod(s, &end)` on decimal input: longest valid prefix of
`[+-]? digits [. digits]? ([eE] [+-]? digits)?` (at least one mantissa
digit), correctly rounded to binary64; returns the value and the number of
bytes consumed (`0` when no conversion was performed).  Hexadecimal floats
and `inf`/`nan` spellings cannot occur in this program's inputs (the number
scratch buffer admits only `[0-9+-eE.]`) and are not modelled. -/
def strtodModel (s : CStr) : Dbl × Nat :=
  let ws := s.takeWhile isSpaceB
  let s1 := s.drop ws.length
  let (neg, signLen) :=
    match s1 with
    | c :: _ => if c = ch '-' then (true, 1) else if c = ch '+' then (false, 1) else (false, 0)
    | [] => (false, 0)
  let s2 := s1.drop signLen
  let ip := s2.takeWhile isDigitB
  let s3 := s2.drop ip.length
  let (fp, dotLen) :=
    match s3 with
    | c :: rest => if c = ch '.' then (rest.takeWhile isDigitB, 1) else ([], 0)
    | [] => ([], 0)
  if (ip ++ fp) = [] then (⟨0⟩, 0)
  else
    let s4 := s3.drop (dotLen + fp.length)
    let (expVal, expLen) :=
      match s4 with
      | c :: rest =>
          if c = ch 'e' || c = ch 'E' then
            let (eneg, esign) :=
              match rest with
              | d :: _ => if d = ch '-' then (true, 1) else if d = ch '+' then (false, 1) else (false, 0)
              | [] => (false, 0)
            let eds := (rest.drop esign).takeWhile isDigitB
            if eds = [] then ((0 : Int), 0)
            else ((if eneg then -(digitsVal eds : Int) else (digitsVal eds : Int)),
                  1 + esign + eds.length)
          else ((0 : Int), 0)
      | [] => ((0 : Int), 0)
    let mant := digitsVal (ip ++ fp)
    let e10 : Int := expVal - fp.length
    let a := mant * 10 ^ (Int.toNat e10)
    let b := 10 ^ (Int.toNat (-e10))
    (mkDbl neg (roundMagBits a b),
     ws.length + signLen + ip.length + dotLen + fp.length + expLen)

/-! ## The value-tree data model (`sbJSON.h`) -/

/-- C `enum sbJSON_Kind`. -/
inductive Kind where
  | sbJSON_Invalid
  | sbJSON_False
  | sbJSON_True
  | sbJSON_NULL
  | sbJSON_Number
  | sbJSON_String
  | sbJSON_Array
  | sbJSON_Object
  | sbJSON_Raw
deriving DecidableEq

/-- The union `sbJSON.u`: eight bytes most recently stored through
`valuestring` (a `char *`), `valueint` (`int64_t`) or `valuedouble`
(`double`).  Reading a member other than the one last stored reinterprets
the object representation. -/
inductive UPayload where
  | ptr (s : Option CStr)
  | int (n : Int)
  | dbl (d : Dbl)
deriving DecidableEq

/-- Read `u.valuedouble`.  When an `int64_t` was stored, the read
reinterprets its two's-complement bits as a binary64 (type punning, the
behaviour of every mainstream C implementation).  When a pointer was stored
its address bits are not determined by the program state; no code path this
file settles claims about performs that read, and it is rendered as `0.0`. -/
def UPayload.valuedouble : UPayload → Dbl
  | .dbl d => d
  | .int n => ⟨i64Bits n⟩
  | .ptr _ => ⟨0⟩

/-- Read `u.valueint`; a stored double's bits reinterpret as an `int64_t`. -/
def UPayload.valueint : UPayload → Int
  | .int n => n
  | .dbl d => bitsToI64 d.bits
  | .ptr _ => 0

/-- Read `u.valuestring`.  When a number was stored, the bits form an
indeterminate pointer: it is not NULL for a nonzero number, but the only
thing the surrounding code ever does with it is dereference or free it,
which is undefined behaviour.  The embedding returns `none`, matching the
only executions that are free of undefined behaviour; no claim settled in
this file depends on that read. -/
def UPayload.valuestring : UPayload → Option CStr
  | .ptr s => s
  | .int _ => none
  | .dbl _ => none

/-- The `sbJSON` node struct.  The intrusive sibling chain
(`child`/`next`/`prev`, with the head's `prev` repurposed as a tail pointer)
is rendered as the list of children, which is the view the list invariants
maintain; `next`/`prev` of a detached node are NULL and carry no data. -/
inductive Node where
  | mk (type : Kind) (is_reference : Bool) (string_is_const : Bool)
       (u : UPayload) (is_number_double : Bool)
       (string : Option CStr) (child : List Node)

/-- Field `type`. -/
def Node.type : Node → Kind
  | .mk t _ _ _ _ _ _ => t

/-- Field `is_reference`. -/
def Node.is_reference : Node → Bool
  | .mk _ r _ _ _ _ _ => r

/-- Field `string_is_const`. -/
def Node.string_is_const : Node → Bool
  | .mk _ _ sc _ _ _ _ => sc

/-- Field `u`. -/
def Node.u : Node → UPayload
  | .mk _ _ _ u _ _ _ => u

/-- Field `is_number_double`. -/
def Node.is_number_double : Node → Bool
  | .mk _ _ _ _ d _ _ => d

/-- Field `string` (the member key slot). -/
def Node.string : Node → Option CStr
  | .mk _ _ _ _ _ s _ => s

/-- Field `child`, as the list of children. -/
def Node.child : Node → List Node
  | .mk _ _ _ _ _ _ c => c

/-- Replace the child list. -/
def Node.setChild : Node → List Node → Node
  | .mk t r sc u d s _, c => .mk t r sc u d s c

theorem Node.sizeOf_child_lt (x : Node) : sizeOf x.child < sizeOf x := by
  cases x with
  | mk t r sc u d s c => simp [Node.child]

theorem Node.sizeOf_mem_child {x : Node} {c : Node} (h : c ∈ x.child) :
    sizeOf c < sizeOf x :=
  lt_trans (List.sizeOf_lt_of_mem h) x.sizeOf_child_lt

/-! ## Node creation (`sbJSON_New_Item` and the `sbJSON_Create*` family).
Allocation is assumed to succeed; `sbJSON_New_Item` zeroes the struct, which
makes the union a NULL `valuestring`. -/

/-- A freshly allocated, zeroed node. -/
def sbJSON_New_Item : Node :=
  .mk .sbJSON_Invalid false false (.ptr none) false none []

def sbJSON_CreateNull : Node :=
  .mk .sbJSON_NULL false false (.ptr none) false none []

def sbJSON_CreateTrue : Node :=
  .mk .sbJSON_True false false (.ptr none) false none []

def sbJSON_CreateFalse : Node :=
  .mk .sbJSON_False false false (.ptr none) false none []

def sbJSON_CreateBool (boolean : Bool) : Node :=
  .mk (if boolean then .sbJSON_True else .sbJSON_False) false false (.ptr none) false none []

def sbJSON_CreateDoubleNumber (num : Dbl) : Node :=
  .mk .sbJSON_Number false false (.dbl num) true none []

def sbJSON_CreateIntegerNumber (num : Int) : Node :=
  .mk .sbJSON_Number false false (.int num) false none []

def sbJSON_CreateString (s : CStr) : Node :=
  .mk .sbJSON_String false false (.ptr (some s)) false none []

def sbJSON_CreateRaw (raw : CStr) : Node :=
  .mk .sbJSON_Raw false false (.ptr (some raw)) false none []

def sbJSON_CreateArray : Node :=
  .mk .sbJSON_Array false false (.ptr none) false none []

def sbJSON_CreateObject : Node :=
  .mk .sbJSON_Object false false (.ptr none) false none []

/-! ## Type predicates and accessors -/

def sbJSON_IsInvalid : Option Node → Bool
  | none => false
  | some x => x.type = .sbJSON_Invalid

def sbJSON_IsNull : Option Node → Bool
  | none => false
  | some x => x.type = .sbJSON_NULL

def sbJSON_IsNumber : Option Node → Bool
  | none => false
  | some x => x.type = .sbJSON_Number

def sbJSON_IsString : Option Node → Bool
  | none => false
  | some x => x.type = .sbJSON_String

def sbJSON_IsArray : Option Node → Bool
  | none => false
  | some x => x.type = .sbJSON_Array

def sbJSON_IsObject : Option Node → Bool
  | none => false
  | some x => x.type = .sbJSON_Object

/-- `sbJSON_GetNumberValue`.  A non-Number node yields the C `NAN`; a
double-tagged Number yields its payload; an integer-tagged Number runs into
`assert(false)`, modelled as `.error ()` (the function never returns
normally there). -/
def sbJSON_GetNumberValue (item : Option Node) : Except Unit Dbl :=
  if !sbJSON_IsNumber item then .ok dblNan
  else
    match item with
    | none => .ok dblNan
    | some x => if x.is_number_double then .ok x.u.valuedouble else .error ()

/-! ## String comparison and object-member lookup (`sbJSON.c`) -/

/-- C `tolower` in the default locale, on a byte. -/
def tolowerB (c : Byte) : Byte := if 65 ≤ c && c ≤ 90 then c + 32 else c

/-- The byte-walk of `case_insensitive_strcmp` on two non-NULL strings.  The
C `string1 == string2` pointer shortcut returns 0 exactly when this walk
does, so it needs no separate rendering. -/
def ciCmpBytes : CStr → CStr → Int
  | [], [] => 0
  | [], d :: _ => 0 - (tolowerB d : Int)
  | c :: _, [] => (tolowerB c : Int)
  | c :: cs, d :: ds =>
      if tolowerB c = tolowerB d then ciCmpBytes cs ds
      else (tolowerB c : Int) - (tolowerB d : Int)

/-- `case_insensitive_strcmp`: NULL pointers are never equal. -/
def case_insensitive_strcmp : Option CStr → Option CStr → Int
  | none, _ => 1
  | _, none => 1
  | some a, some b => ciCmpBytes a b

/-- C `strcmp` on byte strings (sign-normalised result). -/
def strcmpBytes : CStr → CStr → Int
  | [], [] => 0
  | [], d :: _ => 0 - (d : Int)
  | c :: _, [] => (c : Int)
  | c :: cs, d :: ds =>
      if c = d then strcmpBytes cs ds else (c : Int) - (d : Int)

/-- The case-sensitive search loop of `get_object_item`: it stops (and the
caller then reports no match) at the first child whose key is NULL. -/
def getObjectItemCS (name : CStr) : List Node → Option Node
  | [] => none
  | el :: rest =>
      match el.string with
      | none => none
      | some k => if strcmpBytes name k = 0 then some el else getObjectItemCS name rest

/-- The case-insensitive search loop of `get_object_item`
(`case_insensitive_strcmp` treats a NULL key as unequal, so NULL-keyed
children are skipped). -/
def getObjectItemCI (name : CStr) : List Node → Option Node
  | [] => none
  | el :: rest =>
      if case_insensitive_strcmp (some name) el.string = 0 then some el
      else getObjectItemCI name rest

/-- `get_object_item`. -/
def get_object_item (object : Option Node) (name : Option CStr)
    (case_sensitive : Bool) : Option Node :=
  match object, name with
  | none, _ => none
  | _, none => none
  | some o, some nm =>
      if case_sensitive then getObjectItemCS nm o.child else getObjectItemCI nm o.child

/-- `sbJSON_GetObjectItem` (case-insensitive). -/
def sbJSON_GetObjectItem (object : Option Node) (string : Option CStr) : Option Node :=
  get_object_item object string false

/-- `sbJSON_GetObjectItemCaseSensitive`. -/
def sbJSON_GetObjectItemCaseSensitive (object : Option Node) (string : Option CStr) :
    Option Node :=
  get_object_item object string true

theorem getObjectItemCS_mem {name : CStr} {l : List Node} {r : Node}
    (h : getObjectItemCS name l = some r) : r ∈ l := by
  induction l with
  | nil => simp [getObjectItemCS] at h
  | cons el rest ih =>
      rw [getObjectItemCS] at h
      cases hs : el.string with
      | none => rw [hs] at h; simp at h
      | some k =>
          rw [hs] at h
          by_cases hc : strcmpBytes name k = 0
          · simp [hc] at h; simp [h]
          · simp [hc] at h; exact List.mem_cons_of_mem _ (ih h)

theorem getObjectItemCI_mem {name : CStr} {l : List Node} {r : Node}
    (h : getObjectItemCI name l = some r) : r ∈ l := by
  induction l with
  | nil => simp [getObjectItemCI] at h
  | cons el rest ih =>
      rw [getObjectItemCI] at h
      by_cases hc : case_insensitive_strcmp (some name) el.string = 0
      · simp [hc] at h; simp [h]
      · simp [hc] at h; exact List.mem_cons_of_mem _ (ih h)

theorem listNode_sizeOf_pos (l : List Node) : 0 < sizeOf l := by
  cases l <;> simp

theorem get_object_item_mem {o : Node} {name : Option CStr} {cs : Bool} {r : Node}
    (h : get_object_item (some o) name cs = some r) : r ∈ o.child := by
  cases name with
  | none => simp [get_object_item] at h
  | some nm =>
      rw [get_object_item] at h
      by_cases hcs : cs
      · subst hcs; simp at h; exact getObjectItemCS_mem h
      · simp [hcs] at h; exact getObjectItemCI_mem h

/-! ## Structural comparison (`sbJSON_Compare`) -/

/-- `compare_double` (`sbJSON.c`): relative-epsilon comparison
`|a−b| ≤ max(|a|,|b|)·DBL_EPSILON`, evaluated in IEEE arithmetic. -/
def compare_double (a b : Dbl) : Bool :=
  let maxVal := if dblGt (fabsD a) (fabsD b) then fabsD a else fabsD b
  dblLe (fabsD (fpSub a b)) (fpMul maxVal DBL_EPSILON)

mutual

/-- `sbJSON_Compare` for arguments that are distinct allocations: the
`a == b` pointer-identity shortcut never fires on distinct pointers and is
therefore omitted here (the call with both arguments one and the same
pointer is `sbJSON_CompareSelf` below). -/
def sbJSON_Compare (a b : Option Node) (case_sensitive : Bool) : Bool :=
  match a, b with
  | none, _ => false
  | _, none => false
  | some x, some y =>
      if x.type ≠ y.type then false
      else
        match x.type with
        | .sbJSON_Invalid => false      -- the kind-validity switch's default
        | .sbJSON_False => true
        | .sbJSON_True => true
        | .sbJSON_NULL => true
        | .sbJSON_Number =>
            if x.is_number_double ≠ y.is_number_double then false
            else if x.is_number_double then
              compare_double x.u.valuedouble y.u.valuedouble
            else x.u.valueint = y.u.valueint
        | .sbJSON_String =>
            match x.u.valuestring, y.u.valuestring with
            | none, _ => false
            | _, none => false
            | some s, some t => strcmpBytes s t = 0
        | .sbJSON_Raw =>
            match x.u.valuestring, y.u.valuestring with
            | none, _ => false
            | _, none => false
            | some s, some t => strcmpBytes s t = 0
        | .sbJSON_Array => compareArrayElems x.child y.child case_sensitive
        | .sbJSON_Object =>
            compareObjDir x.child y case_sensitive && compareObjDir y.child x case_sensitive
termination_by sizeOf a + sizeOf b
decreasing_by
  all_goals simp_wf
  all_goals try omega
  all_goals
    have h1 := Node.sizeOf_child_lt x
    have h2 := Node.sizeOf_child_lt y
    omega

/-- The element-wise array loop of `sbJSON_Compare`; afterwards both cursors
must be NULL together. -/
def compareArrayElems (as' bs : List Node) (case_sensitive : Bool) : Bool :=
  match as', bs with
  | a :: arest, b :: brest =>
      sbJSON_Compare (some a) (some b) case_sensitive &&
        compareArrayElems arest brest case_sensitive
  | [], [] => true
  | _, _ => false
termination_by sizeOf as' + sizeOf bs
decreasing_by
  all_goals simp_wf
  all_goals try omega
  all_goals
    have h1 := listNode_sizeOf_pos arest
    have h2 := listNode_sizeOf_pos brest
    omega

/-- One direction of the object comparison: every member of `els` must have
a counterpart (looked up by key) in `other` that compares equal. -/
def compareObjDir (els : List Node) (other : Node) (case_sensitive : Bool) : Bool :=
  match els with
  | [] => true
  | el :: rest =>
      match hfound : get_object_item (some other) el.string case_sensitive with
      | none => false
      | some found =>
          sbJSON_Compare (some el) (some found) case_sensitive &&
            compareObjDir rest other case_sensitive
termination_by sizeOf els + sizeOf other
decreasing_by
  all_goals simp_wf
  all_goals try omega
  all_goals
    have h1 := Node.sizeOf_mem_child (get_object_item_mem hfound)
    have h2 := listNode_sizeOf_pos rest
    omega

end

/-- `sbJSON_Compare` specialised to the call pattern in which both arguments
are one and the same pointer (`sbJSON_Compare(v, v, cs)`): after the NULL
check and the kind-validity switch, the `a == b` pointer-identity test
succeeds and the function returns true. -/
def sbJSON_CompareSelf (a : Option Node) (case_sensitive : Bool) : Bool :=
  match a with
  | none => false
  | some x =>
      match x.type with
      | .sbJSON_Invalid => false    -- the kind-validity switch's default case
      | _ => true                   -- `if (a == b) return true;`

/-! ## Mutation primitives (`sbJSON.c`) -/

/-- Replace the `string` (key) field. -/
def Node.setString : Node → Option CStr → Node
  | .mk t r sc u d _ c, s => .mk t r sc u d s c

/-- Replace the `is_reference` and `string_is_const` flags. -/
def Node.setRefConst : Node → Bool → Bool → Node
  | .mk t _ _ u d s c, r, sc => .mk t r sc u d s c

/-- `add_item_to_array`.  A NULL `item` is rejected before `array` is
touched; with a non-NULL item the function reads `array->child`, so a NULL
`array` is a NULL-pointer dereference, modelled as `.error ()`.  The C
append relies on the invariant that a non-empty list's head stores the
tail in its `prev` pointer (it silently adds nothing when `child->prev`
is NULL); the parser, the creators and this file's detach operations all
maintain that invariant, and the one operation that breaks it —
`sort_list` when it actually permutes — is excluded by the sortedness
hypotheses of every theorem below whose execution appends after sorting,
so the embedding renders the append unconditionally.
(`assert(array != item)` holds for distinct nodes.) -/
def add_item_to_array (array item : Option Node) :
    Except Unit (Option Node × Bool) :=
  match item with
  | none => .ok (array, false)
  | some it =>
      match array with
      | none => .error ()
      | some arr => .ok (some (arr.setChild (arr.child ++ [it])), true)

/-- `sbJSON_AddItemToArray`. -/
def sbJSON_AddItemToArray (array item : Option Node) :
    Except Unit (Option Node × Bool) :=
  add_item_to_array array item

/-- `add_item_to_object`.  On the non-constant-key path the key is
`sbJSON_strdup`ed, which yields NULL for a NULL key, failing the call; on
the constant-key path the key pointer is taken as is and `is_reference` is
reset to false (the local starts false and is only updated on the other
path). -/
def add_item_to_object (object : Option Node) (string : Option CStr)
    (item : Option Node) (constant_key : Bool) :
    Except Unit (Option Node × Bool) :=
  match item with
  | none => .ok (object, false)
  | some it =>
      if constant_key then
        add_item_to_array object (some ((it.setString string).setRefConst false true))
      else
        match string with
        | none => .ok (object, false)
        | some k =>
            add_item_to_array object
              (some ((it.setString (some k)).setRefConst it.is_reference false))

/-- `sbJSON_AddItemToObject`. -/
def sbJSON_AddItemToObject (object : Option Node) (string : Option CStr)
    (item : Option Node) : Except Unit (Option Node × Bool) :=
  add_item_to_object object string item false

/-- `sbJSON_DetachItemViaPointer` for its defensive NULL cases; with both
arguments non-NULL it unlinks `item` from `parent`'s child list and returns
it (the list surgery is rendered positionally at the call sites, which know
which child the pointer denotes). -/
def sbJSON_DetachItemViaPointer (parent item : Option Node) : Option Node :=
  match parent, item with
  | none, _ => none
  | _, none => none
  | some _, some it => some it

/-- Remove the first child the case-insensitive lookup loop stops at. -/
def detachFirstCI (name : CStr) : List Node → Option Node × List Node
  | [] => (none, [])
  | el :: rest =>
      if case_insensitive_strcmp (some name) el.string = 0 then (some el, rest)
      else
        let r := detachFirstCI name rest
        (r.1, el :: r.2)

/-- Remove the first child the case-sensitive lookup loop stops at (that
loop gives up at a NULL-keyed child). -/
def detachFirstCS (name : CStr) : List Node → Option Node × List Node
  | [] => (none, [])
  | el :: rest =>
      match el.string with
      | none => (none, el :: rest)
      | some k =>
          if strcmpBytes name k = 0 then (some el, rest)
          else
            let r := detachFirstCS name rest
            (r.1, el :: r.2)

/-- `sbJSON_DetachItemFromObject` (case-insensitive lookup, then detach via
pointer): returns the detached item and the updated object. -/
def sbJSON_DetachItemFromObject (object : Option Node) (string : Option CStr) :
    Option Node × Option Node :=
  match object, string with
  | some o, some nm =>
      match detachFirstCI nm o.child with
      | (some it, rest) => (some it, some (o.setChild rest))
      | (none, _) => (none, some o)
  | _, _ => (none, object)

/-- `sbJSON_DeleteItemFromObject`: detach (case-insensitively), then delete
the detached node (deletion frees memory; at the value level the node is
simply dropped). -/
def sbJSON_DeleteItemFromObject (object : Option Node) (string : Option CStr) :
    Option Node :=
  (sbJSON_DetachItemFromObject object string).2

/-- The recursive body of `sbJSON_Duplicate` (allocation succeeds).  Each
level clears `is_reference`, keeps `string_is_const`, copies the union bytes
(re-`strdup`ing a genuinely stored string to the same bytes) and copies or
shares the key, to the same bytes either way. -/
def dupNode (x : Node) : Node :=
  match x with
  | .mk t _ sc u d s cs =>
      .mk t false sc u d s (cs.attach.map fun c => dupNode c.1)
termination_by sizeOf x
decreasing_by
  have := List.sizeOf_lt_of_mem c.2
  simp
  omega

/-- `sbJSON_Duplicate`. -/
def sbJSON_Duplicate (item : Option Node) (recurse : Bool) : Option Node :=
  match item with
  | none => none
  | some x =>
      if recurse then some (dupNode x)
      else
        match x with
        | .mk t _ sc u d s _ => some (.mk t false sc u d s [])

/-! ## The printer (`print_number`, `print_string_ptr`, `print_value`,
`print_array`, `print_object`, `print`)

The growable output buffer (`ensure`, default size 256, doubling, capped at
`INT_MAX`) cannot fail in the allocate-as-needed strategy used by
`sbJSON_Print`/`sbJSON_PrintUnformatted` on any input a theorem below
evaluates, so the buffer is rendered as the produced byte string. -/

/-- A lowercase hexadecimal digit. -/
def hexDigit (n : Nat) : Byte :=
  if n < 10 then 48 + n else 87 + n

/-- `sprintf("%" PRId64, n)` (the `(long)` cast in the source is the
identity on LP64). -/
def i64Digits (n : Int) : CStr :=
  (if n < 0 then [ch '-'] else []) ++ natDigits n.natAbs

/-- `print_number`: note that it reads `item->u.valuedouble` before looking
at any tag, so an integer-tagged number is read back through the union as a
double. -/
def print_number (item : Node) : Option CStr :=
  let d := item.u.valuedouble
  let buf : CStr :=
    if d.isNan || d.isInf then strBytes "null"
    else if dblEq d (i64ToDbl item.u.valueint) then i64Digits item.u.valueint
    else
      let printed := fmtG 15 d
      let test := strtodModel printed
      -- whether the original double can be recovered from the 15-digit form
      if test.2 = 0 || !compare_double test.1 d then fmtG 17 d else printed
  if 25 < buf.length then none else some buf

/-- The escaping of one byte inside `print_string_ptr`. -/
def escapeByte (c : Byte) : List Byte :=
  if 31 < c && c ≠ 34 && c ≠ 92 then [c]
  else if c = 92 then [92, 92]
  else if c = 34 then [92, 34]
  else if c = 8 then [92, ch 'b']
  else if c = 12 then [92, ch 'f']
  else if c = 10 then [92, ch 'n']
  else if c = 13 then [92, ch 'r']
  else if c = 9 then [92, ch 't']
  else [92, ch 'u', 48, 48, hexDigit (c / 16), hexDigit (c % 16)]

/-- `print_string_ptr`: a NULL input prints as `""`; otherwise the bytes are
escaped (the two-pass exact sizing of the C code does not change the output). -/
def print_string_ptr (input : Option CStr) : CStr :=
  match input with
  | none => [34, 34]
  | some s => 34 :: (s.flatMap escapeByte) ++ [34]

/-- Tab indentation for formatted object members. -/
def tabs (n : Nat) : CStr := List.replicate n 9

mutual

/-- A structurally computable weight of a tree, used to size printer fuel
(every printer call below consumes one unit of fuel, and the call tree for
a node nests no deeper than its weight). -/
def nodeWeight : Node → Nat
  | .mk _ _ _ _ _ _ cs => 3 + nodeListWeight cs

def nodeListWeight : List Node → Nat
  | [] => 0
  | c :: rest => 1 + nodeWeight c + nodeListWeight rest

end

mutual

/-- `print_value` (with `fuel` bounding the call depth; the wrappers pass
more fuel than any input can consume, and every call below consumes one
unit, keeping the whole printer structurally recursive in `fuel`). -/
def print_value (fuel : Nat) (item : Option Node) (format : Bool) (depth : Nat) :
    Option CStr :=
  match fuel with
  | 0 => none
  | fuel + 1 =>
      match item with
      | none => none
      | some x =>
          match x.type with
          | .sbJSON_NULL => some (strBytes "null")
          | .sbJSON_False => some (strBytes "false")
          | .sbJSON_True => some (strBytes "true")
          | .sbJSON_Number => print_number x
          | .sbJSON_Raw =>
              match x.u.valuestring with
              | none => none
              | some s => some s
          | .sbJSON_String => some (print_string_ptr x.u.valuestring)
          | .sbJSON_Array => print_array fuel x format depth
          | .sbJSON_Object => print_object fuel x format depth
          | .sbJSON_Invalid => none
termination_by structural fuel

/-- The element loop of `print_array`: elements separated by `,` (plus a
space when formatted). -/
def print_array_elems (fuel : Nat) (elems : List Node) (format : Bool)
    (depth : Nat) : Option CStr :=
  match fuel with
  | 0 => none
  | fuel + 1 =>
      match elems with
      | [] => some []
      | [e] => print_value fuel (some e) format depth
      | e :: rest =>
          match print_value fuel (some e) format depth with
          | none => none
          | some s =>
              match print_array_elems fuel rest format depth with
              | none => none
              | some t => some (s ++ [ch ','] ++ (if format then [32] else []) ++ t)
termination_by structural fuel

/-- `print_array`: `[` elements `]`, with `depth` incremented around the
elements. -/
def print_array (fuel : Nat) (item : Node) (format : Bool) (depth : Nat) :
    Option CStr :=
  match fuel with
  | 0 => none
  | fuel + 1 =>
      match print_array_elems fuel item.child format (depth + 1) with
      | none => none
      | some s => some ([ch '['] ++ s ++ [ch ']'])
termination_by structural fuel

/-- The member loop of `print_object`: each member is (when formatted)
indented with one tab per depth, printed as `key:` (plus a tab when
formatted), then the value, a comma when another member follows, and a
newline when formatted. -/
def print_object_members (fuel : Nat) (members : List Node) (format : Bool)
    (depth : Nat) : Option CStr :=
  match fuel with
  | 0 => none
  | fuel + 1 =>
      match members with
      | [] => some []
      | m :: rest =>
          let head := (if format then tabs depth else []) ++
            print_string_ptr m.string ++ [ch ':'] ++ (if format then [9] else [])
          match print_value fuel (some m) format depth with
          | none => none
          | some v =>
              match print_object_members fuel rest format depth with
              | none => none
              | some t =>
                  some (head ++ v ++ (if rest.isEmpty then [] else [ch ',']) ++
                    (if format then [10] else []) ++ t)
termination_by structural fuel

/-- `print_object`: `{` (newline when formatted) members, then `}` indented
one tab less than the members. -/
def print_object (fuel : Nat) (item : Node) (format : Bool) (depth : Nat) :
    Option CStr :=
  match fuel with
  | 0 => none
  | fuel + 1 =>
      match print_object_members fuel item.child format (depth + 1) with
      | none => none
      | some s =>
          some ([ch '{'] ++ (if format then [10] else []) ++ s ++
            (if format then tabs depth else []) ++ [ch '}'])
termination_by structural fuel

end

/-- Fuel ample for printing. -/
def printFuel (item : Option Node) : Nat :=
  match item with
  | none => 1
  | some x => nodeWeight x + 1

/-- `print` (the allocate-as-needed strategy shared by `sbJSON_Print` and
`sbJSON_PrintUnformatted`). -/
def printModel (item : Option Node) (format : Bool) : Option CStr :=
  print_value (printFuel item) item format 0

/-- `sbJSON_Print`. -/
def sbJSON_Print (item : Option Node) : Option CStr := printModel item true

/-- `sbJSON_PrintUnformatted`. -/
def sbJSON_PrintUnformatted (item : Option Node) : Option CStr :=
  printModel item false

/-! ## The parser (`parse_number`, `parse_string`, `parse_value`,
`parse_array`, `parse_object` and the `sbJSON_Parse*` entry points) -/

/-- `parse_buffer` (the allocator hooks always succeed in this model). -/
structure ParseBuffer where
  content : List Byte
  length : Nat
  offset : Nat
  depth : Nat

/-- `can_read(buffer, size)`. -/
def ParseBuffer.canRead (b : ParseBuffer) (size : Nat) : Bool :=
  b.offset + size ≤ b.length

/-- `can_access_at_index(buffer, index)`. -/
def ParseBuffer.canAccess (b : ParseBuffer) (index : Nat) : Bool :=
  b.offset + index < b.length

/-- `buffer_at_offset(buffer)[index]` (every read the code performs is in
bounds; out-of-bounds defaults to 0). -/
def ParseBuffer.at' (b : ParseBuffer) (index : Nat) : Byte :=
  b.content.getD (b.offset + index) 0

/-- Advance the offset. -/
def ParseBuffer.adv (b : ParseBuffer) (n : Nat) : ParseBuffer :=
  { b with offset := b.offset + n }

/-- `buffer_skip_whitespace`: skip bytes ≤ 32, then step back from the very
end of the buffer. -/
def buffer_skip_whitespace (b : ParseBuffer) : ParseBuffer :=
  if b.length ≤ b.offset then b
  else
    let rest := (b.content.drop b.offset).take (b.length - b.offset)
    let skip := (rest.takeWhile (fun c => c ≤ 32)).length
    let off := b.offset + skip
    { b with offset := if off = b.length then off - 1 else off }

/-- `skip_utf8_bom` (called only at offset 0): skip an EF BB BF lead when at
least five bytes can be accessed. -/
def skip_utf8_bom (b : ParseBuffer) : ParseBuffer :=
  if b.canAccess 4 && b.at' 0 = 0xEF && b.at' 1 = 0xBB && b.at' 2 = 0xBF then
    b.adv 3
  else b

/-- A byte the number scratch-copy loop accepts. -/
def numByte (c : Byte) : Bool :=
  isDigitB c || c = ch '+' || c = ch '-' || c = ch 'e' || c = ch 'E' || c = ch '.'

/-- `parse_number`: copy up to 63 number bytes into a scratch buffer,
classify as decimal by the presence of `'.'` among the copied bytes, then
convert with `strtod` (decimal) or `strtoll` (otherwise); fail if no byte
was consumed.  Note that an exponent (`e`/`E`) alone does not mark the
number as decimal, and that `strtoll` clamps out-of-range values. -/
def parse_number (b : ParseBuffer) : Option (Node × ParseBuffer) :=
  let window := (b.content.drop b.offset).take (min 63 (b.length - b.offset))
  let scratch := window.takeWhile numByte
  if scratch.contains (ch '.') then
    let r := strtodModel scratch
    if r.2 = 0 then none
    else some (.mk .sbJSON_Number false false (.dbl r.1) true none [], b.adv r.2)
  else
    let r := strtollModel scratch
    if r.2 = 0 then none
    else some (.mk .sbJSON_Number false false (.int r.1) false none [], b.adv r.2)

/-- The value of one hexadecimal digit byte. -/
def hexVal (c : Byte) : Option Nat :=
  if 48 ≤ c && c ≤ 57 then some (c - 48)
  else if 65 ≤ c && c ≤ 70 then some (10 + c - 65)
  else if 97 ≤ c && c ≤ 102 then some (10 + c - 97)
  else none

/-- `parse_hex4`: four hex digits; any invalid digit yields 0. -/
def parse_hex4 (content : List Byte) (i : Nat) : Nat :=
  match hexVal (content.getD i 0), hexVal (content.getD (i + 1) 0),
        hexVal (content.getD (i + 2) 0), hexVal (content.getD (i + 3) 0) with
  | some a, some b, some c, some d => ((a * 16 + b) * 16 + c) * 16 + d
  | _, _, _, _ => 0

/-- The UTF-8 encoding loop of `utf16_literal_to_utf8` (codepoint already
validated ≤ 0x10FFFF). -/
def utf8Encode (cp : Nat) : List Byte :=
  if cp < 0x80 then [cp % 0x80]
  else if cp < 0x800 then [0xC0 + cp / 64, 0x80 + cp % 64]
  else if cp < 0x10000 then [0xE0 + cp / 4096, 0x80 + cp / 64 % 64, 0x80 + cp % 64]
  else [0xF0 + cp / 262144, 0x80 + cp / 4096 % 64, 0x80 + cp / 64 % 64, 0x80 + cp % 64]

/-- `utf16_literal_to_utf8` at position `ip` (pointing at the `\` of
`\uXXXX`), bounded by `e`: returns the UTF-8 bytes and the consumed length
(6 or 12), or `none` on the failure paths of the C code. -/
def utf16_literal_to_utf8 (content : List Byte) (ip e : Nat) : Option (List Byte × Nat) :=
  if e < ip + 6 then none
  else
    let fc := parse_hex4 content (ip + 2)
    if 0xDC00 ≤ fc && fc ≤ 0xDFFF then none
    else if 0xD800 ≤ fc && fc ≤ 0xDBFF then
      if e < ip + 12 then none
      else if content.getD (ip + 6) 0 ≠ 92 || content.getD (ip + 7) 0 ≠ ch 'u' then none
      else
        let sc := parse_hex4 content (ip + 8)
        if sc < 0xDC00 || 0xDFFF < sc then none
        else some (utf8Encode (0x10000 + ((fc % 1024) * 1024 + sc % 1024)), 12)
    else
      if 0x10FFFF < fc then none
      else some (utf8Encode fc, 6)

/-- The first pass of `parse_string`: find the closing quote from position
`p`, stepping over escapes; fails on a trailing backslash.  Returns the
index of the terminator the loop stopped at (the caller then checks it is a
quote in bounds). -/
def scanStrEnd (content : List Byte) (length : Nat) : Nat → Nat → Option Nat
  | _, 0 => none
  | p, fuel + 1 =>
      if length ≤ p then some p
      else
        let c := content.getD p 0
        if c = 34 then some p
        else if c = 92 then
          if length ≤ p + 1 then none
          else scanStrEnd content length (p + 2) fuel
        else scanStrEnd content length (p + 1) fuel

/-- The second pass of `parse_string`: decode bytes from `ip` up to the
closing quote at `e`. -/
def decodeStr (content : List Byte) (e : Nat) : Nat → Nat → Option CStr
  | _, 0 => none
  | ip, fuel + 1 =>
      if e ≤ ip then some []
      else
        let c := content.getD ip 0
        if c ≠ 92 then (decodeStr content e (ip + 1) fuel).map (fun t => c :: t)
        else
          let esc := content.getD (ip + 1) 0
          if esc = ch 'b' then (decodeStr content e (ip + 2) fuel).map (fun t => 8 :: t)
          else if esc = ch 'f' then (decodeStr content e (ip + 2) fuel).map (fun t => 12 :: t)
          else if esc = ch 'n' then (decodeStr content e (ip + 2) fuel).map (fun t => 10 :: t)
          else if esc = ch 'r' then (decodeStr content e (ip + 2) fuel).map (fun t => 13 :: t)
          else if esc = ch 't' then (decodeStr content e (ip + 2) fuel).map (fun t => 9 :: t)
          else if esc = 34 || esc = 92 || esc = ch '/' then
            (decodeStr content e (ip + 2) fuel).map (fun t => esc :: t)
          else if esc = ch 'u' then
            match utf16_literal_to_utf8 content ip e with
            | none => none
            | some (bs, len) => (decodeStr content e (ip + len) fuel).map (fun t => bs ++ t)
          else none

/-- `parse_string`. -/
def parse_string (b : ParseBuffer) : Option (Node × ParseBuffer) :=
  if b.at' 0 ≠ 34 then none
  else
    match scanStrEnd b.content b.length (b.offset + 1) (b.length + 2) with
    | none => none
    | some e =>
        if b.length ≤ e || b.content.getD e 0 ≠ 34 then none
        else
          match decodeStr b.content e (b.offset + 1) (b.length + 2) with
          | none => none
          | some out =>
              some (.mk .sbJSON_String false false (.ptr (some out)) false none [],
                    { b with offset := e + 1 })

/-- `strncmp(buffer_at_offset(b), lit, lit.length) == 0`. -/
def ParseBuffer.matchLit (b : ParseBuffer) (lit : CStr) : Bool :=
  (b.content.drop b.offset).take lit.length = lit

mutual

/-- `parse_value` (fuel-bounded; see the wrapper for the bound). -/
def parse_value (fuel : Nat) (b : ParseBuffer) : Option (Node × ParseBuffer) :=
  match fuel with
  | 0 => none
  | fuel + 1 =>
      if b.canRead 4 && b.matchLit (strBytes "null") then
        some (.mk .sbJSON_NULL false false (.ptr none) false none [], b.adv 4)
      else if b.canRead 5 && b.matchLit (strBytes "false") then
        some (.mk .sbJSON_False false false (.ptr none) false none [], b.adv 5)
      else if b.canRead 4 && b.matchLit (strBytes "true") then
        some (.mk .sbJSON_True false false (.ptr none) false none [], b.adv 4)
      else if b.canAccess 0 && b.at' 0 = 34 then parse_string b
      else if b.canAccess 0 && (b.at' 0 = ch '-' || isDigitB (b.at' 0)) then
        parse_number b
      else if b.canAccess 0 && b.at' 0 = ch '[' then parse_array fuel b
      else if b.canAccess 0 && b.at' 0 = ch '{' then parse_object fuel b
      else none

/-- The element loop of `parse_array` (the do-while over comma-separated
values); the buffer it receives points just before the next element. -/
def parse_array_items (fuel : Nat) (b : ParseBuffer) (acc : List Node) :
    Option (List Node × ParseBuffer) :=
  match fuel with
  | 0 => none
  | fuel + 1 =>
      let b1 := buffer_skip_whitespace (b.adv 1)
      match parse_value fuel b1 with
      | none => none
      | some (item, b2) =>
          let b3 := buffer_skip_whitespace b2
          if b3.canAccess 0 && b3.at' 0 = ch ',' then
            parse_array_items fuel b3 (acc ++ [item])
          else if ¬ b3.canAccess 0 || b3.at' 0 ≠ ch ']' then none
          else some (acc ++ [item], b3)

/-- `parse_array`: nesting-limit check before anything else (the limit
constant is 1000, `SBJSON_NESTING_LIMIT`; the source spells the macro
`CJSON_NESTING_LIMIT`). -/
def parse_array (fuel : Nat) (b : ParseBuffer) : Option (Node × ParseBuffer) :=
  match fuel with
  | 0 => none
  | fuel + 1 =>
      if 1000 ≤ b.depth then none
      else
        let b0 := { b with depth := b.depth + 1 }
        if b0.at' 0 ≠ ch '[' then none
        else
          let b1 := buffer_skip_whitespace (b0.adv 1)
          if b1.canAccess 0 && b1.at' 0 = ch ']' then
            some (.mk .sbJSON_Array false false (.ptr none) false none [],
                  { b1.adv 1 with depth := b.depth })
          else if ¬ b1.canAccess 0 then none
          else
            match parse_array_items fuel { b1 with offset := b1.offset - 1 } [] with
            | none => none
            | some (items, b2) =>
                some (.mk .sbJSON_Array false false (.ptr none) false none items,
                      { b2.adv 1 with depth := b.depth })

/-- The member loop of `parse_object`: key string, `':'`, value; the parsed
key is swapped from the value-string slot into the key slot. -/
def parse_object_items (fuel : Nat) (b : ParseBuffer) (acc : List Node) :
    Option (List Node × ParseBuffer) :=
  match fuel with
  | 0 => none
  | fuel + 1 =>
      let b1 := buffer_skip_whitespace (b.adv 1)
      match parse_string b1 with
      | none => none
      | some (keyItem, b2) =>
          let b3 := buffer_skip_whitespace b2
          let key := keyItem.u.valuestring
          if ¬ b3.canAccess 0 || b3.at' 0 ≠ ch ':' then none
          else
            let b4 := buffer_skip_whitespace (b3.adv 1)
            match parse_value fuel b4 with
            | none => none
            | some (value, b5) =>
                let member := value.setString key
                let b6 := buffer_skip_whitespace b5
                if b6.canAccess 0 && b6.at' 0 = ch ',' then
                  parse_object_items fuel b6 (acc ++ [member])
                else if ¬ b6.canAccess 0 || b6.at' 0 ≠ ch '}' then none
                else some (acc ++ [member], b6)

/-- `parse_object` (same nesting-limit check as `parse_array`). -/
def parse_object (fuel : Nat) (b : ParseBuffer) : Option (Node × ParseBuffer) :=
  match fuel with
  | 0 => none
  | fuel + 1 =>
      if 1000 ≤ b.depth then none
      else
        let b0 := { b with depth := b.depth + 1 }
        if ¬ b0.canAccess 0 || b0.at' 0 ≠ ch '{' then none
        else
          let b1 := buffer_skip_whitespace (b0.adv 1)
          if b1.canAccess 0 && b1.at' 0 = ch '}' then
            some (.mk .sbJSON_Object false false (.ptr none) false none [],
                  { b1.adv 1 with depth := b.depth })
          else if ¬ b1.canAccess 0 then none
          else
            match parse_object_items fuel { b1 with offset := b1.offset - 1 } [] with
            | none => none
            | some (items, b2) =>
                some (.mk .sbJSON_Object false false (.ptr none) false none items,
                      { b2.adv 1 with depth := b.depth })

end

/-- Fuel ample for parsing a buffer of `n` bytes: each fuel-consuming call
either advances the offset or descends into a value whose opening byte has
been consumed, so fewer than `4 n + 8` such calls can occur. -/
def parseFuel (n : Nat) : Nat := 4 * n + 8

/-- `sbJSON_ParseWithLengthOpts` (the error-pointer bookkeeping is a global
side channel and is not part of the result). -/
def sbJSON_ParseWithLengthOpts (value : Option (List Byte)) (buffer_length : Nat)
    (require_null_terminated : Bool) : Option Node :=
  match value with
  | none => none
  | some v =>
      if buffer_length = 0 then none
      else
        let buf : ParseBuffer := ⟨v, buffer_length, 0, 0⟩
        match parse_value (parseFuel buffer_length)
            (buffer_skip_whitespace (skip_utf8_bom buf)) with
        | none => none
        | some (item, b') =>
            if require_null_terminated then
              let b'' := buffer_skip_whitespace b'
              if b''.length ≤ b''.offset || b''.at' 0 ≠ 0 then none else some item
            else some item

/-- `sbJSON_ParseWithOpts`: the buffer is the string plus its NUL, with
`buffer_length = strlen(value) + 1`. -/
def sbJSON_ParseWithOpts (value : Option CStr) (require_null_terminated : Bool) :
    Option Node :=
  match value with
  | none => none
  | some v =>
      sbJSON_ParseWithLengthOpts (some (v ++ [0])) (v.length + 1) require_null_terminated

/-- `sbJSON_Parse`. -/
def sbJSON_Parse (value : Option CStr) : Option Node :=
  sbJSON_ParseWithOpts value false

/-! ## `sbJSON_Utils.c`: string/pointer helpers -/

/-- `compare_strings` (NULL pointers never equal; the pointer-equality
shortcut returns 0 exactly when the byte walk does). -/
def compare_strings : Option CStr → Option CStr → Int
  | none, _ => 1
  | _, none => 1
  | some a, some b => strcmpBytes a b

/-- `compare_pointers`: match a member key against the next pointer token
(`~0` ↔ `~`, `~1` ↔ `/`); a NULL key never matches. -/
def comparePointersBytes : CStr → CStr → Bool
  | [], [] => true
  | [], pc :: _ => pc = ch '/'
  | _ :: _, [] => false
  | nm :: ns, pc :: ps =>
      if pc = ch '/' then false
      else if pc = ch '~' then
        if (ps.headD 0 = ch '0' && nm = ch '~') || (ps.headD 0 = ch '1' && nm = ch '/') then
          comparePointersBytes ns (ps.drop 1)
        else false
      else if nm = pc then comparePointersBytes ns ps
      else false

/-- `compare_pointers` with its NULL check. -/
def compare_pointers (name : Option CStr) (pointer : CStr) : Bool :=
  match name with
  | none => false
  | some nm => comparePointersBytes nm pointer

/-- The utils-local `get_array_item` ("non broken version"). -/
def uGetArrayItem (array : Option Node) (item : Nat) : Option Node :=
  match array with
  | none => none
  | some a => a.child.get? item

/-- `decode_array_index_from_pointer`.  The argument is the remainder of the
pointer string from the token start (reading past its end sees the NUL).
Note the digit loop's condition compares `pointer[0]`, not
`pointer[position]`, against `'9'`, so once the first byte is a digit every
subsequent byte with code ≥ `'0'` is consumed as a "digit".  The
accumulator is a `size_t` (wraps mod 2⁶⁴). -/
def decode_array_index_from_pointer (pointer : CStr) : Option Nat :=
  let at' := fun i => pointer.getD i 0
  if at' 0 = ch '0' && at' 1 ≠ 0 && at' 1 ≠ ch '/' then none
  else
    let span := if at' 0 ≤ ch '9' then (pointer.takeWhile (fun c => 48 ≤ c)).length else 0
    let parsed := (pointer.take span).foldl (fun acc c => (10 * acc + (c - 48)) % 2 ^ 64) 0
    if at' span ≠ 0 && at' span ≠ ch '/' then none
    else some parsed

/-- The token-by-token loop of `get_item_from_pointer`. -/
def getItemFromPointerLoop : Nat → Option Node → CStr → Option Node
  | 0, _, _ => none
  | _ + 1, none, _ => none
  | fuel + 1, some el, pointer =>
      match pointer with
      | [] => some el
      | pc :: rest =>
          if pc ≠ ch '/' then some el
          else
            if el.type = .sbJSON_Array then
              match decode_array_index_from_pointer rest with
              | none => none
              | some index =>
                  getItemFromPointerLoop fuel (uGetArrayItem (some el) index)
                    (rest.dropWhile (fun c => c ≠ ch '/'))
            else if el.type = .sbJSON_Object then
              getItemFromPointerLoop fuel
                (el.child.find? fun c => compare_pointers c.string rest)
                (rest.dropWhile (fun c => c ≠ ch '/'))
            else none

/-- `get_item_from_pointer`. -/
def get_item_from_pointer (object : Option Node) (pointer : Option CStr) :
    Option Node :=
  match pointer with
  | none => none
  | some p => getItemFromPointerLoop (p.length + 2) object p

/-- `sbJSONUtils_GetPointer`. -/
def sbJSONUtils_GetPointer (object : Option Node) (pointer : Option CStr) :
    Option Node :=
  get_item_from_pointer object pointer

/-- The in-place loop of `decode_pointer_inplace`, simulated on the buffer
(the original bytes plus their NUL slot): read index `s`, write index `d`.
An ordinary byte is *not* copied (read and write cursors started equal and
only escapes shift them); `~0` writes `~` at `d`; `~1` writes `/` at `d+1`
(as the source does); an invalid escape returns without writing the
terminator. -/
def dpiLoop (buf : List Byte) (s d fuel : Nat) : List Byte :=
  match fuel with
  | 0 => buf
  | fuel + 1 =>
      if buf.getD s 0 = 0 then (buf.take d) ++ [0] ++ buf.drop (d + 1)
      else if buf.getD s 0 = ch '~' then
        if buf.getD (s + 1) 0 = ch '0' then
          dpiLoop (buf.set d (ch '~')) (s + 2) (d + 1) fuel
        else if buf.getD (s + 1) 0 = ch '1' then
          dpiLoop (buf.set (d + 1) (ch '/')) (s + 2) (d + 1) fuel
        else buf
      else dpiLoop buf (s + 1) (d + 1) fuel

/-- `decode_pointer_inplace` as a function on the C string: append the NUL,
run the loop, read back the bytes before the first NUL. -/
def decode_pointer_inplace (s : CStr) : CStr :=
  (dpiLoop (s ++ [0]) 0 0 (s.length + 2)).takeWhile (fun c => c ≠ 0)

/-- The utils-local `detach_item_from_array` ("non-broken"): detach the
child at `which`, if any. -/
def detach_item_from_array (array : Node) (which : Nat) : Option Node × Node :=
  match array.child.get? which with
  | none => (none, array)
  | some it =>
      (some it, array.setChild ((array.child.take which) ++ (array.child.drop (which + 1))))

/-! ## Sorting object members (`sort_list`, `sort_object`) -/

/-- The initial scan of `sort_list`: an already strictly-ascending list is
left unmodified. -/
def scanSorted : List Node → Bool
  | [] => true
  | [_] => true
  | a :: b :: rest =>
      if compare_strings a.string b.string < 0 then scanSorted (b :: rest) else false

/-- The merge phase of `sort_list` (ties taken from the second list). -/
def mergeLists : List Node → List Node → List Node
  | [], second => second
  | f :: fs, [] => f :: fs
  | f :: fs, s :: ss =>
      if compare_strings f.string s.string < 0 then f :: mergeLists fs (s :: ss)
      else s :: mergeLists (f :: fs) ss
termination_by a b => a.length + b.length

/-- `sort_list`: mergesort on the sibling list; the split walks one cursor
twice as fast, leaving `⌈n/2⌉` nodes in the first half. -/
def sort_list (l : List Node) : List Node :=
  match l with
  | [] => []
  | [x] => [x]
  | a :: b :: rest =>
      if scanSorted (a :: b :: rest) then a :: b :: rest
      else
        let k := ((a :: b :: rest).length + 1) / 2
        mergeLists (sort_list ((a :: b :: rest).take k))
          (sort_list ((a :: b :: rest).drop k))
termination_by l.length
decreasing_by
  · simp [List.length_take]
    omega
  · simp [List.length_drop]
    omega

/-- `sort_object`. -/
def sort_object (o : Node) : Node := o.setChild (sort_list o.child)

theorem mergeLists_perm (a b : List Node) : (mergeLists a b).Perm (a ++ b) := by
  induction a, b using mergeLists.induct with
  | case1 second => simp [mergeLists]
  | case2 f fs => simp [mergeLists]
  | case3 f fs s ss hlt ih =>
      rw [mergeLists, if_pos hlt]
      exact ih.cons f
  | case4 f fs s ss hlt ih =>
      rw [mergeLists, if_neg hlt]
      exact (ih.cons s).trans List.perm_middle.symm

theorem sort_list_perm (l : List Node) : (sort_list l).Perm l := by
  induction l using sort_list.induct with
  | case1 => simp [sort_list]
  | case2 x => simp [sort_list]
  | case3 a b rest hsorted =>
      rw [sort_list, if_pos hsorted]
  | case4 a b rest hsorted k ih1 ih2 =>
      rw [sort_list, if_neg hsorted]
      refine (mergeLists_perm _ _).trans ?_
      refine (ih1.append ih2).trans ?_
      rw [List.take_append_drop]

theorem perm_sizeOf_eq {l₁ l₂ : List Node} (h : l₁.Perm l₂) :
    sizeOf l₁ = sizeOf l₂ := by
  induction h with
  | nil => rfl
  | cons x _ ih => simp [ih]
  | swap x y l => simp; omega
  | trans _ _ ih1 ih2 => omega

theorem sort_list_sizeOf (l : List Node) : sizeOf (sort_list l) = sizeOf l :=
  perm_sizeOf_eq (sort_list_perm l)

theorem sort_list_mem {l : List Node} {x : Node} (h : x ∈ sort_list l) : x ∈ l :=
  (sort_list_perm l).mem_iff.mp h

/-! ## `compare_json` (the patch engine's equality, with its documented
sort-in-place side effect threaded through the return value) -/

/-- `numbers_match`. -/
def numbers_match (a b : Node) : Bool :=
  if a.is_number_double ≠ b.is_number_double then false
  else if a.is_number_double then compare_double a.u.valuedouble b.u.valuedouble
  else a.u.valueint = b.u.valueint

mutual

/-- `compare_json`.  Comparing two Object nodes first sorts both member
lists in place (a documented side effect), so the verdict is returned
together with the possibly re-ordered operands.  (`strcmp` on a NULL
`valuestring` would be undefined behaviour in the source; the embedding
answers false there, and no claim below reaches that case.) -/
def compare_json (a b : Option Node) : Bool × Option Node × Option Node :=
  match a, b with
  | none, _ => (false, a, b)
  | _, none => (false, a, b)
  | some x, some y =>
      if x.type ≠ y.type then (false, a, b)
      else
        match x.type with
        | .sbJSON_Number => (numbers_match x y, a, b)
        | .sbJSON_String =>
            match x.u.valuestring, y.u.valuestring with
            | some s, some t => (strcmpBytes s t = 0, a, b)
            | _, _ => (false, a, b)
        | .sbJSON_Array =>
            let r := cjArrayPairs x.child y.child
            (r.1, some (x.setChild r.2.1), some (y.setChild r.2.2))
        | .sbJSON_Object =>
            let r := cjObjectPairs (sort_list x.child) (sort_list y.child)
            (r.1, some (x.setChild r.2.1), some (y.setChild r.2.2))
        | _ => (true, a, b)    -- null, true, false (and Raw, Invalid) reach `return true`
termination_by sizeOf a + sizeOf b
decreasing_by
  all_goals simp_wf
  all_goals
    have h1 := Node.sizeOf_child_lt x
    have h2 := Node.sizeOf_child_lt y
    try rw [sort_list_sizeOf, sort_list_sizeOf]
    omega

/-- The element loop of the Array case (stops at the first mismatch; a
length mismatch fails). -/
def cjArrayPairs (xs ys : List Node) : Bool × List Node × List Node :=
  match xs, ys with
  | [], [] => (true, [], [])
  | [], y :: ys' => (false, [], y :: ys')
  | x :: xs', [] => (false, x :: xs', [])
  | x :: xs', y :: ys' =>
      let r := compare_json (some x) (some y)
      let x' := r.2.1.getD x
      let y' := r.2.2.getD y
      if ¬ r.1 then (false, x' :: xs', y' :: ys')
      else
        let rr := cjArrayPairs xs' ys'
        (rr.1, x' :: rr.2.1, y' :: rr.2.2)
termination_by sizeOf xs + sizeOf ys
decreasing_by
  all_goals simp_wf
  all_goals try omega
  all_goals
    have h1 := listNode_sizeOf_pos xs'
    have h2 := listNode_sizeOf_pos ys'
    omega

/-- The member loop of the Object case: keys are compared positionally
(after sorting) before values; a key mismatch fails before any deeper
mutation. -/
def cjObjectPairs (xs ys : List Node) : Bool × List Node × List Node :=
  match xs, ys with
  | [], [] => (true, [], [])
  | [], y :: ys' => (false, [], y :: ys')
  | x :: xs', [] => (false, x :: xs', [])
  | x :: xs', y :: ys' =>
      if compare_strings x.string y.string ≠ 0 then (false, x :: xs', y :: ys')
      else
        let r := compare_json (some x) (some y)
        let x' := r.2.1.getD x
        let y' := r.2.2.getD y
        if ¬ r.1 then (false, x' :: xs', y' :: ys')
        else
          let rr := cjObjectPairs xs' ys'
          (rr.1, x' :: rr.2.1, y' :: rr.2.2)
termination_by sizeOf xs + sizeOf ys
decreasing_by
  all_goals simp_wf
  all_goals try omega
  all_goals
    have h1 := listNode_sizeOf_pos xs'
    have h2 := listNode_sizeOf_pos ys'
    omega

end
theorem Node.sizeOf_setChild (x : Node) (l : List Node) :
    sizeOf (x.setChild l) + sizeOf x.child = sizeOf x + sizeOf l := by
  cases x
  simp [Node.setChild, Node.child]
  omega

theorem node_sizeOf_pos (x : Node) : 0 < sizeOf x := by
  cases x
  simp

theorem getD_sizeOf (o : Option Node) (x : Node) (h : sizeOf o = sizeOf (some x)) :
    sizeOf (o.getD x) = sizeOf x := by
  cases o with
  | none =>
      exfalso
      have hx := node_sizeOf_pos x
      have h1 : sizeOf (none : Option Node) = 1 := rfl
      have h2 : sizeOf (some x) = 1 + sizeOf x := rfl
      omega
  | some v =>
      have h2 : sizeOf (some x) = 1 + sizeOf x := rfl
      have h3 : sizeOf (some v) = 1 + sizeOf v := rfl
      rw [h3, h2] at h
      show sizeOf v = sizeOf x
      omega

set_option maxHeartbeats 1600000 in
theorem compare_json_sizes (a b : Option Node) :
    sizeOf (compare_json a b).2.1 = sizeOf a ∧ sizeOf (compare_json a b).2.2 = sizeOf b := by
  induction a, b using compare_json.induct
  case motive2 xs ys =>
    exact sizeOf (cjObjectPairs xs ys).2.1 = sizeOf xs ∧
      sizeOf (cjObjectPairs xs ys).2.2 = sizeOf ys
  case motive3 xs ys =>
    exact sizeOf (cjArrayPairs xs ys).2.1 = sizeOf xs ∧
      sizeOf (cjArrayPairs xs ys).2.2 = sizeOf ys
  case case1 b => cases b <;> rw [compare_json.eq_def] <;> exact ⟨rfl, rfl⟩
  case case2 a ha =>
    cases a with
    | none => exact absurd rfl ha
    | some x => rw [compare_json.eq_def]; exact ⟨rfl, rfl⟩
  case case3 x y hne => rw [compare_json.eq_def]; simp [hne]
  case case4 x y hne hk =>
    rw [not_ne_iff] at hne
    have hy : y.type = Kind.sbJSON_Number := hne.symm.trans hk
    rw [compare_json.eq_def]
    simp [hne, hk, hy]
  case case5 x y hne hk s t hys hxs =>
    rw [not_ne_iff] at hne
    have hy : y.type = Kind.sbJSON_String := hne.symm.trans hk
    rw [compare_json.eq_def]
    simp [hne, hk, hy, hys, hxs]
  case case6 x y hne hk hcontra =>
    rw [not_ne_iff] at hne
    have hy : y.type = Kind.sbJSON_String := hne.symm.trans hk
    rw [compare_json.eq_def]
    cases hxs : x.u.valuestring with
    | none => simp [hne, hk, hy, hxs]
    | some s =>
        cases hys : y.u.valuestring with
        | none => simp [hne, hk, hy, hxs, hys]
        | some t => exact (hcontra s t hxs hys).elim
  case case7 x y hne hk ih =>
    rw [not_ne_iff] at hne
    have hy : y.type = Kind.sbJSON_Array := hne.symm.trans hk
    obtain ⟨ih1, ih2⟩ := ih
    have h1 := Node.sizeOf_setChild x (cjArrayPairs x.child y.child).2.1
    have h2 := Node.sizeOf_setChild y (cjArrayPairs x.child y.child).2.2
    rw [compare_json.eq_def]
    simp [hne, hk, hy]
    omega
  case case8 x y hne hk ih =>
    rw [not_ne_iff] at hne
    have hy : y.type = Kind.sbJSON_Object := hne.symm.trans hk
    obtain ⟨ih1, ih2⟩ := ih
    have h1 := Node.sizeOf_setChild x (cjObjectPairs (sort_list x.child) (sort_list y.child)).2.1
    have h2 := Node.sizeOf_setChild y (cjObjectPairs (sort_list x.child) (sort_list y.child)).2.2
    have hq1 := sort_list_sizeOf x.child
    have hq2 := sort_list_sizeOf y.child
    rw [compare_json.eq_def]
    simp [hne, hk, hy]
    omega
  case case9 x y hne hn hs ha ho =>
    rw [not_ne_iff] at hne
    rw [compare_json.eq_def]
    cases hk : x.type
    case sbJSON_Number => exact absurd hk hn
    case sbJSON_String => exact absurd hk hs
    case sbJSON_Array => exact absurd hk ha
    case sbJSON_Object => exact absurd hk ho
    all_goals
      have hy := hne.symm.trans hk
      simp [hne, hk, hy]
  case case10 => rw [cjObjectPairs.eq_def]; exact ⟨rfl, rfl⟩
  case case11 y ys' => rw [cjObjectPairs.eq_def]; exact ⟨rfl, rfl⟩
  case case12 x xs' => rw [cjObjectPairs.eq_def]; exact ⟨rfl, rfl⟩
  case case13 x xs' y ys' hne => rw [cjObjectPairs.eq_def]; simp [hne]
  case case14 x xs' y ys' hkeq r hne ih =>
    have hne' : (compare_json (some x) (some y)).1 ≠ true := hne
    obtain ⟨ih1, ih2⟩ := ih
    have g1 := getD_sizeOf _ x ih1
    have g2 := getD_sizeOf _ y ih2
    rw [cjObjectPairs.eq_def]
    simp [hkeq, hne', g1, g2]
  case case15 x xs' y ys' hkeq r hok ih ihr =>
    have hok' : (compare_json (some x) (some y)).1 = true := not_not.mp hok
    obtain ⟨ih1, ih2⟩ := ih
    obtain ⟨ir1, ir2⟩ := ihr
    have g1 := getD_sizeOf _ x ih1
    have g2 := getD_sizeOf _ y ih2
    rw [cjObjectPairs.eq_def]
    simp [hkeq, hok', g1, g2]
    omega
  case case16 => rw [cjArrayPairs.eq_def]; exact ⟨rfl, rfl⟩
  case case17 y ys' => rw [cjArrayPairs.eq_def]; exact ⟨rfl, rfl⟩
  case case18 x xs' => rw [cjArrayPairs.eq_def]; exact ⟨rfl, rfl⟩
  case case19 x xs' y ys' r hne ih =>
    have hne' : (compare_json (some x) (some y)).1 ≠ true := hne
    obtain ⟨ih1, ih2⟩ := ih
    have g1 := getD_sizeOf _ x ih1
    have g2 := getD_sizeOf _ y ih2
    rw [cjArrayPairs.eq_def]
    simp [hne', g1, g2]
  case case20 x xs' y ys' r hok ih ihr =>
    have hok' : (compare_json (some x) (some y)).1 = true := not_not.mp hok
    obtain ⟨ih1, ih2⟩ := ih
    obtain ⟨ir1, ir2⟩ := ihr
    have g1 := getD_sizeOf _ x ih1
    have g2 := getD_sizeOf _ y ih2
    rw [cjArrayPairs.eq_def]
    simp [hok', g1, g2]
    omega
/-! ## JSON Patch (`sbJSONUtils_ApplyPatches`)

The C code mutates the document through interior pointers obtained by
`get_item_from_pointer`.  `modifyAtPointerLoop` renders that pattern
functionally: it repeats the walk of `getItemFromPointerLoop` byte for
byte, applies the callback to the element the walk ends at (`none` when
the walk fails, in which case the callback's replacement is discarded and
the tree is unchanged, exactly as the C mutation through a NULL pointer
guard does nothing) and rebuilds the spine. -/

def modifyAtPointerLoop {α : Type} (f : Option Node → α × Option Node) :
    Nat → Option Node → CStr → α × Option Node
  | 0, el?, _ => ((f none).1, el?)
  | _ + 1, none, _ => ((f none).1, none)
  | fuel + 1, some el, pointer =>
      match pointer with
      | [] =>
          let r := f (some el)
          (r.1, some ((r.2).getD el))
      | pc :: rest =>
          if pc ≠ ch '/' then
            let r := f (some el)
            (r.1, some ((r.2).getD el))
          else if el.type = .sbJSON_Array then
            match decode_array_index_from_pointer rest with
            | none => ((f none).1, some el)
            | some index =>
                match el.child.get? index with
                | none => ((f none).1, some el)
                | some c =>
                    let r := modifyAtPointerLoop f fuel (some c)
                      (rest.dropWhile (fun b => b ≠ ch '/'))
                    (r.1, some (el.setChild (el.child.set index ((r.2).getD c))))
          else if el.type = .sbJSON_Object then
            match el.child.findIdx? (fun c => compare_pointers c.string rest) with
            | none => ((f none).1, some el)
            | some k =>
                match el.child.get? k with
                | none => ((f none).1, some el)
                | some c =>
                    let r := modifyAtPointerLoop f fuel (some c)
                      (rest.dropWhile (fun b => b ≠ ch '/'))
                    (r.1, some (el.setChild (el.child.set k ((r.2).getD c))))
          else ((f none).1, some el)

/-- Index of the last `'/'` (`strrchr(parent_pointer, '/')`). -/
def lastSlashIdx (p : CStr) : Option Nat :=
  match p.reverse.findIdx? (fun c => c = ch '/') with
  | none => none
  | some j => some (p.length - 1 - j)

/-- The utils-local `insert_item_in_array` ("non broken version"): walking
`which` steps past the end fails; `which` equal to the length appends. -/
def insert_item_in_array (array : Node) (which : Nat) (newitem : Node) :
    Bool × Node :=
  if array.child.length < which then (false, array)
  else
    (true, array.setChild
      (array.child.take which ++ [newitem] ++ array.child.drop which))

/-- `enum patch_operation`. -/
inductive PatchOp where
  | INVALID | ADD | REMOVE | REPLACE | MOVE | COPY | TEST
deriving DecidableEq

/-- `decode_patch_operation`.  The `strcmp` against the literal op names is
rendered with `compare_strings`, whose NULL-is-unequal guard stands in for
the undefined `strcmp(NULL, ...)` of a string node without a payload. -/
def decode_patch_operation (patch : Node) : PatchOp :=
  let operation := get_object_item (some patch) (some (strBytes "op")) false
  if ¬ sbJSON_IsString operation then .INVALID
  else
    match operation with
    | none => .INVALID
    | some opn =>
        let s := opn.u.valuestring
        if compare_strings s (some (strBytes "add")) = 0 then .ADD
        else if compare_strings s (some (strBytes "remove")) = 0 then .REMOVE
        else if compare_strings s (some (strBytes "replace")) = 0 then .REPLACE
        else if compare_strings s (some (strBytes "move")) = 0 then .MOVE
        else if compare_strings s (some (strBytes "copy")) = 0 then .COPY
        else if compare_strings s (some (strBytes "test")) = 0 then .TEST
        else .INVALID

/-- `detach_path`: split the pointer at its last `'/'`, walk to the parent,
decode the child token, then detach by index (array parent) or by
case-insensitive key (object parent).  Returns the detached item and the
updated document. -/
def detach_path (object : Node) (path : CStr) : Option Node × Node :=
  match lastSlashIdx path with
  | none => (none, object)
  | some idx =>
      let parentPtr := path.take idx
      let childPtr := decode_pointer_inplace (path.drop (idx + 1))
      let m := modifyAtPointerLoop (fun parent? =>
          match parent? with
          | none => ((none : Option Node), none)
          | some parent =>
              if parent.type = .sbJSON_Array then
                match decode_array_index_from_pointer childPtr with
                | none => (none, some parent)
                | some i =>
                    let d := detach_item_from_array parent i
                    (d.1, some d.2)
              else if parent.type = .sbJSON_Object then
                let d := sbJSON_DetachItemFromObject (some parent) (some childPtr)
                (d.1, d.2)
              else (none, some parent))
        (parentPtr.length + 2) (some object) parentPtr
      (m.1, (m.2).getD object)

/-- The `static const sbJSON invalid` used when the root is removed. -/
def invalidItem : Node :=
  .mk .sbJSON_Invalid false false (.ptr none) false none []

/-- Replace the member of `o` that the case-insensitive `get_object_item`
lookup finds, rendering the mutation the TEST op performs through the
pointer it obtained into the patch. -/
def setObjectItemCI (o : Node) (name : CStr) (v : Option Node) : Node :=
  match v with
  | none => o
  | some newv =>
      match o.child.findIdx?
          (fun c => case_insensitive_strcmp (some name) c.string = 0) with
      | none => o
      | some k => o.setChild (o.child.set k newv)

/-- `apply_patch`: returns the status together with the updated document
and the updated patch (a TEST op leaves both the resolved document subtree
and the patch's "value" member in the sorted form `compare_json` produced).
Reads of `path->u.valuestring` on a string node without a payload (possible
only in undefined executions) fall back to the empty string. -/
def apply_patch (object patch : Node) : Int × Node × Node :=
  let path := get_object_item (some patch) (some (strBytes "path")) false
  if ¬ sbJSON_IsString path then (2, object, patch)
  else
    match path with
    | none => (2, object, patch)
    | some pnode =>
        let opcode := decode_patch_operation patch
        if opcode = .INVALID then (3, object, patch)
        else if opcode = .TEST then
          let val := get_object_item (some patch) (some (strBytes "value")) false
          match pnode.u.valuestring with
          | none =>
              let r := compare_json none val
              ((if r.1 then 0 else 1), object, setObjectItemCI patch (strBytes "value") r.2.2)
          | some pstr =>
              let m := modifyAtPointerLoop
                (fun found =>
                  let r := compare_json found val
                  ((r.1, r.2.2), r.2.1))
                (pstr.length + 2) (some object) pstr
              ((if m.1.1 then 0 else 1), (m.2).getD object,
                setObjectItemCI patch (strBytes "value") m.1.2)
        else
          let pstr := (pnode.u.valuestring).getD []
          if pstr.headD 0 = 0 ∧ opcode = .REMOVE then
            (0, invalidItem, patch)
          else if pstr.headD 0 = 0 ∧ (opcode = .REPLACE ∨ opcode = .ADD) then
            match get_object_item (some patch) (some (strBytes "value")) false with
            | none => (7, object, patch)
            | some v => (0, (dupNode v).setString none, patch)
          else
            -- REMOVE and REPLACE first discard the old item
            let step1 : Option (Int × Node) :=
              if opcode = .REMOVE ∨ opcode = .REPLACE then
                let d := detach_path object pstr
                match d.1 with
                | none => some (13, d.2)
                | some _ => if opcode = .REMOVE then some (0, d.2) else none
              else none
            match step1 with
            | some r => (r.1, r.2, patch)
            | none =>
                let object₁ :=
                  if opcode = .REMOVE ∨ opcode = .REPLACE then (detach_path object pstr).2
                  else object
                -- obtain the value: "from" for MOVE/COPY, "value" otherwise
                let step2 : (Int × Node) ⊕ (Node × Node) :=
                  if opcode = .MOVE ∨ opcode = .COPY then
                    match get_object_item (some patch) (some (strBytes "from")) false with
                    | none => .inl (4, object₁)
                    | some fromNode =>
                        if opcode = .MOVE then
                          let d := detach_path object₁ ((fromNode.u.valuestring).getD [])
                          match d.1 with
                          | none => .inl (5, d.2)
                          | some v => .inr (v, d.2)
                        else
                          match get_item_from_pointer (some object₁) fromNode.u.valuestring with
                          | none => .inl (5, object₁)
                          | some v => .inr (dupNode v, object₁)
                  else
                    match get_object_item (some patch) (some (strBytes "value")) false with
                    | none => .inl (7, object₁)
                    | some v => .inr (dupNode v, object₁)
                match step2 with
                | .inl r => (r.1, r.2, patch)
                | .inr (value, object₂) =>
                    match lastSlashIdx pstr with
                    | none => (9, object₂, patch)
                    | some idx =>
                        let parentPtr := pstr.take idx
                        let childPtr := decode_pointer_inplace (pstr.drop (idx + 1))
                        let m := modifyAtPointerLoop (fun parent? =>
                            match parent? with
                            | none => ((9 : Int), none)
                            | some parent =>
                                if parent.type = .sbJSON_Array then
                                  if childPtr = [ch '-'] then
                                    (0, some (parent.setChild (parent.child ++ [value])))
                                  else
                                    match decode_array_index_from_pointer childPtr with
                                    | none => (11, some parent)
                                    | some index =>
                                        let r := insert_item_in_array parent index value
                                        if r.1 then (0, some r.2) else (10, some parent)
                                else if parent.type = .sbJSON_Object then
                                  let p₁ := (sbJSON_DeleteItemFromObject
                                    (some parent) (some childPtr)).getD parent
                                  match sbJSON_AddItemToObject (some p₁)
                                      (some childPtr) (some value) with
                                  | .ok (newp, _) => (0, some (newp.getD p₁))
                                  | .error _ => (0, some p₁)
                                else (9, some parent))
                          (parentPtr.length + 2) (some object₂) parentPtr
                        (m.1, (m.2).getD object₂, patch)

/-- The patch loop of `sbJSONUtils_ApplyPatches`: apply in order, stop at
the first nonzero status.  The document and the patches already processed
keep the mutations each `apply_patch` made. -/
def applyPatchesLoop (object : Node) : List Node → Int × Node × List Node
  | [] => (0, object, [])
  | p :: rest =>
      let r := apply_patch object p
      if r.1 ≠ 0 then (r.1, r.2.1, r.2.2 :: rest)
      else
        let rr := applyPatchesLoop r.2.1 rest
        (rr.1, rr.2.1, r.2.2 :: rr.2.2)

/-- `sbJSONUtils_ApplyPatches`. -/
def sbJSONUtils_ApplyPatches (object : Node) (patches : Option Node) :
    Int × Node × Option Node :=
  if ¬ sbJSON_IsArray patches then (1, object, patches)
  else
    match patches with
    | none => (1, object, none)
    | some ps =>
        let r := applyPatchesLoop object ps.child
        (r.1, r.2.1, some (ps.setChild r.2.2))
/-! ## RFC 7396 merge patches (`merge_patch`, `generate_merge_patch`) -/

mutual

/-- `merge_patch`.  A non-object patch replaces the whole target by a deep
copy of the patch; an object patch is walked member by member. -/
def merge_patch (target : Option Node) (patch : Option Node) : Option Node :=
  if ¬ sbJSON_IsObject patch then sbJSON_Duplicate patch true
  else
    match patch with
    | none => none
    | some p =>
        let target₁ := if ¬ sbJSON_IsObject target then some sbJSON_CreateObject else target
        mergeLoop target₁ p.child
termination_by (sizeOf patch, 0)
decreasing_by
  simp_wf
  apply Prod.Lex.left
  exact lt_of_lt_of_le (Node.sizeOf_child_lt _) (Nat.le_add_left _ _)

/-- The member loop of `merge_patch`: a null member deletes the key
(case-insensitively), any other member detaches the key and merges into
the detached value, appending the result. -/
def mergeLoop (target : Option Node) : (pcs : List Node) → Option Node
  | [] => target
  | pc :: rest =>
      if sbJSON_IsNull (some pc) then
        mergeLoop (sbJSON_DeleteItemFromObject target pc.string) rest
      else
        let d := sbJSON_DetachItemFromObject target pc.string
        match merge_patch d.1 (some pc) with
        | none => none
        | some rep =>
            match sbJSON_AddItemToObject d.2 pc.string (some rep) with
            | .ok (t', _) => mergeLoop t' rest
            | .error _ => none
termination_by pcs => (sizeOf pcs, 1)
decreasing_by
  all_goals simp_wf
  all_goals apply Prod.Lex.left
  all_goals first
  | omega
  | (have h2 := listNode_sizeOf_pos rest; omega)

end

/-- `sbJSONUtils_MergePatch`. -/
def sbJSONUtils_MergePatch (target patch : Option Node) : Option Node :=
  merge_patch target patch

/-- A member append through `sbJSON_AddItemToObject(patch, key, item)`: a
NULL item or a NULL key adds nothing. -/
def addMember (key : Option CStr) (item : Option Node) : List Node :=
  match item, key with
  | some it, some k => [(it.setString (some k)).setRefConst it.is_reference false]
  | _, _ => []

/-- `sort_object` permutes the children, so their total size is unchanged. -/
theorem sort_object_child_sizeOf (y : Node) :
    sizeOf (sort_object y).child = sizeOf y.child := by
  cases y
  simp [sort_object, Node.setChild, Node.child, sort_list_sizeOf]

mutual

/-- `generate_merge_patch`, with the in-place mutations threaded: returns
the patch (`none` both for "delete everything is impossible" — never — and
for "no difference", the ambiguity behind the merge round-trip bug),
together with the sorted/compared forms `from` and `to` are left in. -/
def generate_merge_patch (fromNode : Option Node) (toNode : Option Node) :
    Option Node × Option Node × Option Node :=
  match toNode with
  | none => (some sbJSON_CreateNull, fromNode, none)
  | some t =>
      if ¬ (sbJSON_IsObject (some t) ∧ sbJSON_IsObject fromNode) then
        (sbJSON_Duplicate (some t) true, fromNode, some t)
      else
        match fromNode with
        | none => (sbJSON_Duplicate (some t) true, none, some t)
        | some f =>
            let f₁ := sort_object f
            let t₁ := sort_object t
            let w := genWalk f₁.child t₁.child
            let fOut := f₁.setChild w.2.1
            let tOut := t₁.setChild w.2.2
            if w.1.isEmpty then (none, some fOut, some tOut)
            else (some (sbJSON_CreateObject.setChild w.1), some fOut, some tOut)
termination_by (sizeOf fromNode + sizeOf toNode, 0)
decreasing_by
  simp_wf
  apply Prod.Lex.left
  simp only [sort_object_child_sizeOf]
  exact Nat.add_lt_add (lt_of_lt_of_le (Node.sizeOf_child_lt _) (Nat.le_add_left _ _))
    (lt_of_lt_of_le (Node.sizeOf_child_lt _) (Nat.le_add_left _ _))

/-- The sorted two-cursor walk of `generate_merge_patch`: emit `null` for
keys only in `from`, a duplicate for keys only in `to`, and a recursive
patch for keys in both that `compare_json` distinguishes (whose sorting
mutations persist in both trees). -/
def genWalk : (fs : List Node) → (ts : List Node) → List Node × List Node × List Node
  | [], [] => ([], [], [])
  | fc :: fs', [] =>
      let w := genWalk fs' []
      (addMember fc.string (some sbJSON_CreateNull) ++ w.1, fc :: w.2.1, w.2.2)
  | [], tc :: ts' =>
      let w := genWalk [] ts'
      (addMember tc.string (sbJSON_Duplicate (some tc) true) ++ w.1, w.2.1, tc :: w.2.2)
  | fc :: fs', tc :: ts' =>
      let diff := compare_strings fc.string tc.string
      if diff < 0 then
        let w := genWalk fs' (tc :: ts')
        (addMember fc.string (some sbJSON_CreateNull) ++ w.1, fc :: w.2.1, w.2.2)
      else if 0 < diff then
        let w := genWalk (fc :: fs') ts'
        (addMember tc.string (sbJSON_Duplicate (some tc) true) ++ w.1, w.2.1, tc :: w.2.2)
      else
        let r := compare_json (some fc) (some tc)
        let fc₁ := (r.2.1).getD fc
        let tc₁ := (r.2.2).getD tc
        if r.1 then
          let w := genWalk fs' ts'
          (w.1, fc₁ :: w.2.1, tc₁ :: w.2.2)
        else
          let g := generate_merge_patch (some fc₁) (some tc₁)
          let fc₂ := (g.2.1).getD fc₁
          let tc₂ := (g.2.2).getD tc₁
          let w := genWalk fs' ts'
          (addMember tc.string g.1 ++ w.1, fc₂ :: w.2.1, tc₂ :: w.2.2)
termination_by fs ts => (sizeOf fs + sizeOf ts, 1)
decreasing_by
  all_goals simp_wf
  all_goals apply Prod.Lex.left
  all_goals try omega
  all_goals
    have h1 := compare_json_sizes (some fc) (some tc)
    have g1 := getD_sizeOf _ fc h1.1
    have g2 := getD_sizeOf _ tc h1.2
    have p1 := listNode_sizeOf_pos fs'
    have p2 := listNode_sizeOf_pos ts'
    simp at g1 g2 ⊢
    omega

end

/-- `sbJSONUtils_GenerateMergePatch` (the same threaded rendering). -/
def sbJSONUtils_GenerateMergePatch (fromNode toNode : Option Node) :
    Option Node × Option Node × Option Node :=
  generate_merge_patch fromNode toNode
/-! ## A decidable structural equality on trees (for concrete statements) -/

mutual

/-- Structural Boolean equality on `Node` (field-wise, children pointwise). -/
def nodeBEq : Node → Node → Bool
  | .mk t1 r1 s1 u1 d1 k1 c1, .mk t2 r2 s2 u2 d2 k2 c2 =>
      t1 = t2 && r1 = r2 && s1 = s2 && u1 = u2 && d1 = d2 && k1 = k2 &&
        nodeListBEq c1 c2

/-- `nodeBEq` on sibling lists. -/
def nodeListBEq : List Node → List Node → Bool
  | [], [] => true
  | a :: as', b :: bs => nodeBEq a b && nodeListBEq as' bs
  | _, _ => false

end

theorem nodeBEq_iff (a b : Node) : nodeBEq a b = true ↔ a = b := by
  induction a, b using nodeBEq.induct
  case motive_2 l m => exact nodeListBEq l m = true ↔ l = m
  case case1 t1 r1 s1 u1 d1 k1 c1 t2 r2 s2 u2 d2 k2 c2 ih =>
      simp [nodeBEq, ih]
      tauto
  case case2 => simp [nodeListBEq]
  case case3 a as' b bs ih1 ih2 => simp [nodeListBEq, ih1, ih2]
  case case4 l m h1 h2 =>
      cases l <;> cases m <;> simp_all [nodeListBEq]
      exact fun _ => absurd rfl (h2 _ _ _ _ rfl rfl rfl)

instance : DecidableEq Node := fun a b =>
  decidable_of_iff (nodeBEq a b = true) (nodeBEq_iff a b)
/-! ## Claims -/

set_option maxRecDepth 100000 in
/-- C1: the print/parse round-trip does NOT return a tree structurally
equal to the input for every NaN/Infinity-free constructible tree: the
integer Number node 1 (constructible by `sbJSON_CreateIntegerNumber`, no
doubles at all) prints — through `print_number`'s type-punned read of
`u.valuedouble` — as `4.94065645841247e-324`, which re-parses as a
*double* Number node, and `sbJSON_Compare` rejects the pair because the
`is_number_double` flags differ. -/
theorem c1_roundtrip_fails_on_integer_node :
    sbJSON_Print (some (sbJSON_CreateIntegerNumber 1)) =
      some (strBytes "4.94065645841247e-324") ∧
    sbJSON_PrintUnformatted (some (sbJSON_CreateIntegerNumber 1)) =
      some (strBytes "4.94065645841247e-324") ∧
    sbJSON_Parse (sbJSON_Print (some (sbJSON_CreateIntegerNumber 1))) =
      some (Node.mk .sbJSON_Number false false (.dbl ⟨1⟩) true none []) ∧
    sbJSON_Compare (sbJSON_Parse (sbJSON_Print (some (sbJSON_CreateIntegerNumber 1))))
      (some (sbJSON_CreateIntegerNumber 1)) true = false ∧
    sbJSON_Compare (sbJSON_Parse (sbJSON_Print (some (sbJSON_CreateIntegerNumber 1))))
      (some (sbJSON_CreateIntegerNumber 1)) false = false := by
  have hparse : sbJSON_Parse (sbJSON_Print (some (sbJSON_CreateIntegerNumber 1))) =
      some (Node.mk .sbJSON_Number false false (.dbl ⟨1⟩) true none []) := by decide
  refine ⟨by decide, by decide, hparse, ?_, ?_⟩ <;>
    · rw [hparse]
      simp [sbJSON_Compare, sbJSON_CreateIntegerNumber, Node.type, Node.is_number_double]

set_option maxRecDepth 100000 in
/-- C2: `print_number` does not produce the decimal formatting of an
integer payload: it reads the punned `u.valuedouble`, so integer 1 prints
as `4.94065645841247e-324` (not `"1"`) and 2147483647 does not print as
`"2147483647"`; the NaN/±Infinity half of the sentence does hold. -/
theorem c2_print_number_integer_diverges :
    print_number (sbJSON_CreateIntegerNumber 1) =
      some (strBytes "4.94065645841247e-324") ∧
    print_number (sbJSON_CreateIntegerNumber 1) ≠ some (strBytes "1") ∧
    print_number (sbJSON_CreateIntegerNumber 2147483647) ≠
      some (strBytes "2147483647") ∧
    print_number (sbJSON_CreateDoubleNumber dblNan) = some (strBytes "null") ∧
    print_number (sbJSON_CreateDoubleNumber ⟨dblInfBits⟩) = some (strBytes "null") ∧
    print_number (sbJSON_CreateDoubleNumber ⟨2 ^ 63 + dblInfBits⟩) =
      some (strBytes "null") := by
  refine ⟨rfl, by decide, by decide, rfl, rfl, rfl⟩

set_option maxRecDepth 100000 in
/-- C3: a number token without `'.'` whose value overflows int64 is NOT
re-parsed as a double: `parse_number` classifies by `'.'` alone and
`strtoll` clamps, so `18446744073709551616` parses as the integer Number
`INT64_MAX` (`is_number_double` false) and `-9223372036854775809` as
`INT64_MIN`. -/
theorem c3_parse_overflow_clamps_to_int64 :
    (sbJSON_Parse (some (strBytes "18446744073709551616"))).map
        (fun x => (x.type, x.is_number_double, x.u.valueint)) =
      some (.sbJSON_Number, false, 9223372036854775807) ∧
    (sbJSON_Parse (some (strBytes "-9223372036854775809"))).map
        (fun x => (x.type, x.is_number_double, x.u.valueint)) =
      some (.sbJSON_Number, false, -9223372036854775808) := by
  exact ⟨by decide, by decide⟩

/-- A 21-element array used to exhibit the C5 divergence. -/
def c5arr : Node :=
  Node.mk .sbJSON_Array false false (.ptr none) false none
    ((List.range 21).map fun i => sbJSON_CreateIntegerNumber i)

set_option maxRecDepth 100000 in
/-- C5: resolving a pointer token against an Array does NOT fail for every
token containing a non-digit: the digit loop of
`decode_array_index_from_pointer` compares `pointer[0]` (not the current
byte) against `'9'`, so the token `1:` is accepted and decodes to index
20 (`':'` contributes `58 − '0' = 10`), and `/1:` resolves to the
21st element instead of returning null. -/
theorem c5_nondigit_token_resolves :
    decode_array_index_from_pointer (strBytes "1:") = some 20 ∧
    sbJSONUtils_GetPointer (some c5arr) (some (strBytes "/1:")) =
      some (sbJSON_CreateIntegerNumber 20) := by
  exact ⟨rfl, rfl⟩

/-- C6: the mutating operations are NOT all defensive about NULL: a NULL
`item` is indeed rejected (returns false) and the detach helpers are
defensive, but `add_item_to_array` dereferences a NULL `array` as soon as
the item is non-NULL (`child = array->child` with no check), modelled as
`.error ()`, and `sbJSON_AddItemToObject` reaches the same dereference. -/
theorem c6_add_to_null_array_dereferences :
    sbJSON_AddItemToArray none (some sbJSON_CreateTrue) = .error () ∧
    sbJSON_AddItemToArray (some sbJSON_CreateArray) none =
      .ok (some sbJSON_CreateArray, false) ∧
    sbJSON_AddItemToObject none (some (strBytes "key")) (some sbJSON_CreateTrue) =
      .error () ∧
    sbJSON_DetachItemViaPointer none (some sbJSON_CreateTrue) = none ∧
    sbJSON_DetachItemViaPointer (some sbJSON_CreateArray) none = none := by
  exact ⟨rfl, rfl, rfl, rfl, rfl⟩

/-- C10: `sbJSON_GetNumberValue` returns NaN for every non-Number argument
(including NULL), the stored double payload for a double-tagged Number,
and never returns normally for an integer-tagged Number (`assert(false)`,
rendered `.error ()`). -/
theorem c10_get_number_value :
    (∀ item, sbJSON_IsNumber item = false → sbJSON_GetNumberValue item = .ok dblNan) ∧
    (∀ x : Node, x.type = .sbJSON_Number → x.is_number_double = true →
      sbJSON_GetNumberValue (some x) = .ok x.u.valuedouble) ∧
    (∀ x : Node, x.type = .sbJSON_Number → x.is_number_double = false →
      sbJSON_GetNumberValue (some x) = .error ()) := by
  refine ⟨?_, ?_, ?_⟩
  · intro item h
    simp [sbJSON_GetNumberValue, h]
  · intro x h1 h2
    simp [sbJSON_GetNumberValue, sbJSON_IsNumber, h1, h2]
  · intro x h1 h2
    simp [sbJSON_GetNumberValue, sbJSON_IsNumber, h1, h2]

/-- Witness for C10 at concrete inputs. -/
theorem c10_get_number_value_witness :
    sbJSON_IsNumber (some sbJSON_CreateTrue) = false ∧
    sbJSON_GetNumberValue (some sbJSON_CreateTrue) = .ok dblNan ∧
    sbJSON_GetNumberValue (some (sbJSON_CreateDoubleNumber ⟨5⟩)) = .ok ⟨5⟩ ∧
    sbJSON_GetNumberValue (some (sbJSON_CreateIntegerNumber 3)) = .error () := by
  refine ⟨by decide, c10_get_number_value.1 _ (by decide), ?_, ?_⟩
  · have h := c10_get_number_value.2.1 (sbJSON_CreateDoubleNumber ⟨5⟩) (by decide) (by decide)
    simpa [sbJSON_CreateDoubleNumber, UPayload.valuedouble] using h
  · exact c10_get_number_value.2.2 (sbJSON_CreateIntegerNumber 3) (by decide) (by decide)
/-- Helper for C7: the patch loop either succeeds as a whole or the patch
list splits at the first failing patch; the status and the final document
are those produced by that failing application on the state the successful
prefix left behind. -/
theorem applyPatchesLoop_first_failure (patches : List Node) : ∀ object : Node,
    (applyPatchesLoop object patches).1 = 0 ∨
    ∃ pre p post,
      patches = pre ++ p :: post ∧
      (applyPatchesLoop object pre).1 = 0 ∧
      (apply_patch (applyPatchesLoop object pre).2.1 p).1 ≠ 0 ∧
      (applyPatchesLoop object patches).1 =
        (apply_patch (applyPatchesLoop object pre).2.1 p).1 ∧
      (applyPatchesLoop object patches).2.1 =
        (apply_patch (applyPatchesLoop object pre).2.1 p).2.1 := by
  induction patches with
  | nil => intro object; left; rfl
  | cons p rest ih =>
      intro object
      by_cases h : (apply_patch object p).1 = 0
      · rcases ih (apply_patch object p).2.1 with h0 | ⟨pre, q, post, heq, hpre, hq, hstat, hdoc⟩
        · left
          simp [applyPatchesLoop, h, h0]
        · right
          refine ⟨p :: pre, q, post, by simp [heq], ?_, ?_, ?_, ?_⟩
          · simp [applyPatchesLoop, h, hpre]
          · simpa [applyPatchesLoop, h] using hq
          · simpa [applyPatchesLoop, h, heq] using hstat
          · simpa [applyPatchesLoop, h, heq] using hdoc
      · right
        refine ⟨[], p, rest, rfl, rfl, ?_, ?_, ?_⟩
        · simpa [applyPatchesLoop] using h
        · simp [applyPatchesLoop, h]
        · simp [applyPatchesLoop, h]

/-- C7: `sbJSONUtils_ApplyPatches` on an Array of patches runs the loop on
the sibling list in order; either every patch reports 0 and so does the
whole call, or the list splits around a first failing patch: every patch
before it was applied (and stays applied — the failing call receives and
returns the document those applications produced, with no rollback), the
loop stops there, and the call returns that patch's nonzero status. -/
theorem c7_apply_patches_stops_at_first_failure (object : Node) (pats : Node)
    (harr : pats.type = .sbJSON_Array) :
    sbJSONUtils_ApplyPatches object (some pats) =
      ((applyPatchesLoop object pats.child).1,
       (applyPatchesLoop object pats.child).2.1,
       some (pats.setChild (applyPatchesLoop object pats.child).2.2)) ∧
    ((applyPatchesLoop object pats.child).1 = 0 ∨
      ∃ pre p post,
        pats.child = pre ++ p :: post ∧
        (applyPatchesLoop object pre).1 = 0 ∧
        (apply_patch (applyPatchesLoop object pre).2.1 p).1 ≠ 0 ∧
        (applyPatchesLoop object pats.child).1 =
          (apply_patch (applyPatchesLoop object pre).2.1 p).1 ∧
        (applyPatchesLoop object pats.child).2.1 =
          (apply_patch (applyPatchesLoop object pre).2.1 p).2.1) := by
  constructor
  · simp [sbJSONUtils_ApplyPatches, sbJSON_IsArray, harr]
  · exact applyPatchesLoop_first_failure pats.child object

/-- The document of the C7 witness, the object with integer members
`a` ↦ 1, `b` ↦ 2, `c` ↦ 3 (exactly the tree the parser builds for it). -/
def c7doc : Node :=
  Node.mk .sbJSON_Object false false (.ptr none) false none
    [Node.mk .sbJSON_Number false false (.int 1) false (some (strBytes "a")) [],
     Node.mk .sbJSON_Number false false (.int 2) false (some (strBytes "b")) [],
     Node.mk .sbJSON_Number false false (.int 3) false (some (strBytes "c")) []]

/-- A remove patch object with the given `path` member. -/
def c7patRemove (path : CStr) : Node :=
  Node.mk .sbJSON_Object false false (.ptr none) false none
    [Node.mk .sbJSON_String false false (.ptr (some (strBytes "remove"))) false
       (some (strBytes "op")) [],
     Node.mk .sbJSON_String false false (.ptr (some path)) false
       (some (strBytes "path")) []]

/-- The patches of the C7 witness: a remove that succeeds, a malformed
patch without `"op"` (status 2), and a remove that is never reached. -/
def c7pats : Node :=
  Node.mk .sbJSON_Array false false (.ptr none) false none
    [c7patRemove (strBytes "/a"),
     Node.mk .sbJSON_Object false false (.ptr none) false none [],
     c7patRemove (strBytes "/c")]

set_option maxRecDepth 100000 in
set_option maxHeartbeats 1000000 in
/-- Witness for C7: the hypothesis holds for the concrete patch array, the
call reports the second patch's status 2, the first remove stays applied
("a" is gone, "c" survives), and the decomposition is witnessed at the
concrete input. -/
theorem c7_apply_patches_stops_at_first_failure_witness :
    c7pats.type = .sbJSON_Array ∧
    (sbJSONUtils_ApplyPatches c7doc (some c7pats)).1 = 2 ∧
    (sbJSONUtils_ApplyPatches c7doc (some c7pats)).2.1 =
      (c7doc.setChild (c7doc.child.drop 1)) ∧
    ((applyPatchesLoop c7doc c7pats.child).1 = 0 ∨
      ∃ pre p post,
        c7pats.child = pre ++ p :: post ∧
        (applyPatchesLoop c7doc pre).1 = 0 ∧
        (apply_patch (applyPatchesLoop c7doc pre).2.1 p).1 ≠ 0 ∧
        (applyPatchesLoop c7doc c7pats.child).1 =
          (apply_patch (applyPatchesLoop c7doc pre).2.1 p).1 ∧
        (applyPatchesLoop c7doc c7pats.child).2.1 =
          (apply_patch (applyPatchesLoop c7doc pre).2.1 p).2.1) := by
  refine ⟨by decide, by decide, by decide,
    (c7_apply_patches_stops_at_first_failure c7doc c7pats (by decide)).2⟩

/-- C4 counterexample: comparison is NOT reflexive at the two degenerate
points the sentence includes — two NULL roots compare false, and a node of
kind Invalid compares false against itself. -/
theorem c4_counterexample_null_and_invalid :
    sbJSON_Compare none none true = false ∧
    sbJSON_Compare none none false = false ∧
    sbJSON_CompareSelf none true = false ∧
    sbJSON_CompareSelf (some invalidItem) true = false ∧
    sbJSON_CompareSelf (some invalidItem) false = false := by
  refine ⟨?_, ?_, rfl, rfl, rfl⟩ <;> simp [sbJSON_Compare]

/-- C4 (amended): for a node compared against itself (one pointer passed
twice), the NULL guard and the kind-validity switch run first and the
`a == b` identity test then returns true, so self-comparison holds exactly
for the nodes whose kind is not `sbJSON_Invalid`; two NULL roots always
compare false. -/
theorem c4_compare_self_reflexive_except_invalid :
    (∀ (v : Node) (cs : Bool),
      sbJSON_CompareSelf (some v) cs = decide (v.type ≠ Kind.sbJSON_Invalid)) ∧
    (∀ cs : Bool, sbJSON_Compare none none cs = false ∧
      sbJSON_CompareSelf none cs = false) := by
  constructor
  · intro v cs
    cases h : v.type <;> simp [sbJSON_CompareSelf, h]
  · intro cs
    exact ⟨by simp [sbJSON_Compare], rfl⟩

/-- Reading inside the replicated prefix of an appended list. -/
theorem getD_replicate_append {a : Byte} {n i : Nat} (h : i < n) (l : List Byte) :
    (List.replicate n a ++ l).getD i 0 = a := by
  induction n generalizing i with
  | zero => omega
  | succ n ih =>
      rw [List.replicate_succ, List.cons_append]
      cases i with
      | zero => rfl
      | succ i => exact ih (by omega)

/-- A literal whose first byte differs from the buffer's current byte does
not match. -/
theorem matchLit_false_at {b : ParseBuffer} {lit : CStr}
    (hne : b.at' 0 ≠ lit.headD 0) (hnil : lit ≠ []) :
    b.matchLit lit = false := by
  cases lit with
  | nil => exact absurd rfl hnil
  | cons d rest =>
      rw [ParseBuffer.matchLit]
      cases hdrop : b.content.drop b.offset with
      | nil => simp
      | cons c cs =>
          have hc : b.at' 0 = c := by
            rw [ParseBuffer.at', Nat.add_zero]
            have h1 : b.content[b.offset]? = some c := by
              rw [← List.head?_drop, hdrop]
              rfl
            simp [List.getD, h1]
          have hcd : c ≠ d := fun h => hne (by rw [hc, h]; rfl)
          simp [List.take_succ_cons, hcd]

/-- A buffer sitting on a non-whitespace byte strictly inside its window is
left alone by `buffer_skip_whitespace`. -/
theorem skip_ws_id {cont : List Byte} {len off dep : Nat} (hoff : off < len)
    (hb : 32 < cont.getD off 0) :
    buffer_skip_whitespace ⟨cont, len, off, dep⟩ = ⟨cont, len, off, dep⟩ := by
  have hskip : ((cont.drop off).take (len - off)).takeWhile
      (fun c => c ≤ 32) = [] := by
    cases hdrop : cont.drop off with
    | nil => simp
    | cons c cs =>
        have hc : cont.getD off 0 = c := by
          have h1 : cont[off]? = some c := by
            rw [← List.head?_drop, hdrop]
            rfl
          simp [List.getD, h1]
        rw [show len - off = (len - off - 1) + 1 from by omega, List.take_succ_cons]
        rw [List.takeWhile_cons_of_neg (by simpa using (by rw [hc] at hb; exact Nat.not_le.mpr hb : ¬ c ≤ 32))]
  have hone : ¬ ((⟨cont, len, off, dep⟩ : ParseBuffer).length ≤
      (⟨cont, len, off, dep⟩ : ParseBuffer).offset) := by
    show ¬ len ≤ off
    omega
  have htwo : ¬ (off = (⟨cont, len, off, dep⟩ : ParseBuffer).length) := by
    show ¬ off = len
    omega
  rw [buffer_skip_whitespace, if_neg hone]
  show (let rest := (cont.drop off).take (len - off)
        let skip := (rest.takeWhile (fun c => c ≤ 32)).length
        let o := off + skip
        ({ content := cont, length := len, offset := if o = len then o - 1 else o,
           depth := dep } : ParseBuffer)) = ⟨cont, len, off, dep⟩
  simp only [hskip, List.length_nil, Nat.add_zero]
  rw [if_neg (show ¬ off = len from by omega)]

/-- Parsing fails — for every fuel — when the buffer sits on `m + 1`
consecutive `'['` bytes and the depth counter plus `m` has already reached
the nesting limit: each `'['` costs one depth level and the limit check
runs before the recursion. -/
theorem parse_value_deep_brackets :
    ∀ (fuel : Nat) (b : ParseBuffer) (m : Nat), 1000 ≤ b.depth + m →
      b.offset + m < b.length → b.length ≤ b.content.length →
      (∀ i, i ≤ m → b.at' i = 91) →
      parse_value fuel b = none := by
  intro fuel
  induction fuel using Nat.strong_induction_on with
  | _ fuel ih =>
    intro b m hd hl hcl hbr
    cases fuel with
    | zero => rfl
    | succ f =>
      obtain ⟨cont, len, off, dep⟩ := b
      have hd' : 1000 ≤ dep + m := hd
      have hl' : off + m < len := hl
      have hcl' : len ≤ cont.length := hcl
      have hbr' : ∀ i, i ≤ m → cont.getD (off + i) 0 = 91 := fun i hi => hbr i hi
      have h0get : cont.getD (off + 0) 0 = 91 := hbr' 0 (Nat.zero_le m)
      have hat0 : ParseBuffer.at' ⟨cont, len, off, dep⟩ 0 = 91 := h0get
      have hml1 : ParseBuffer.matchLit ⟨cont, len, off, dep⟩ (strBytes "null") = false :=
        matchLit_false_at (by rw [hat0]; decide) (by decide)
      have hml2 : ParseBuffer.matchLit ⟨cont, len, off, dep⟩ (strBytes "false") = false :=
        matchLit_false_at (by rw [hat0]; decide) (by decide)
      have hml3 : ParseBuffer.matchLit ⟨cont, len, off, dep⟩ (strBytes "true") = false :=
        matchLit_false_at (by rw [hat0]; decide) (by decide)
      have hacc0 : ParseBuffer.canAccess ⟨cont, len, off, dep⟩ 0 = true := by
        show (decide (off + 0 < len)) = true
        simp only [decide_eq_true_eq]
        omega
      rw [parse_value]
      simp only [hml1, hml2, hml3, Bool.and_false, Bool.false_eq_true, if_false,
        hat0, hacc0, Bool.true_and, isDigitB,
        show ch '-' = 45 from rfl, show ch '[' = 91 from rfl,
        show ch '{' = 123 from rfl]
      norm_num
      -- the value dispatch lands on `parse_array f`
      cases f with
      | zero => rfl
      | succ g =>
        rw [parse_array]
        by_cases hdep : 1000 ≤ dep
        · simp [hdep]
        · have hm1 : 1 ≤ m := by omega
          have h1get : cont.getD (off + 1) 0 = 91 := hbr' 1 hm1
          have h0get' : cont[off]?.getD 0 = 91 := by
            rw [← List.getD_eq_getElem?_getD]
            simpa using h0get
          have h1get' : cont[off + 1]?.getD 0 = 91 := by
            rw [← List.getD_eq_getElem?_getD]
            exact h1get
          have hb1 : buffer_skip_whitespace ⟨cont, len, off + 1, dep + 1⟩ =
              ⟨cont, len, off + 1, dep + 1⟩ :=
            skip_ws_id (by omega) (by rw [h1get]; decide)
          have hlt1 : off + 1 < len := by omega
          have hitems : parse_array_items g ⟨cont, len, off, dep + 1⟩ [] = none := by
            cases g with
            | zero => rfl
            | succ k =>
              rw [parse_array_items]
              have hrec : parse_value k ⟨cont, len, off + 1, dep + 1⟩ = none := by
                apply ih k (by omega) ⟨cont, len, off + 1, dep + 1⟩ (m - 1)
                · show 1000 ≤ dep + 1 + (m - 1)
                  omega
                · show off + 1 + (m - 1) < len
                  omega
                · exact hcl'
                · intro i hi
                  show cont.getD (off + 1 + i) 0 = 91
                  have := hbr' (i + 1) (by omega)
                  rw [show off + 1 + i = off + (i + 1) from by omega]
                  exact this
              simp [ParseBuffer.adv, hb1, hrec]
          simp [hdep, ParseBuffer.adv, ParseBuffer.at', ParseBuffer.canAccess,
            h0get, h1get, h0get', h1get', hlt1, hb1, hitems,
            show ch '[' = 91 from rfl, show ch ']' = 93 from rfl]

set_option maxRecDepth 100000 in
/-- C9: both container parsers compare the running depth against the
nesting limit 1000 (`SBJSON_NESTING_LIMIT`; the source spells the macro
`CJSON_NESTING_LIMIT`) before parsing any element, so any buffer that
already reached the limit fails no matter the remaining fuel or content;
concretely, 1001 nested arrays fail to parse (while shallow nesting
succeeds). -/
theorem c9_nesting_limit_checked_before_recursion :
    (∀ (fuel : Nat) (b : ParseBuffer), 1000 ≤ b.depth → parse_array fuel b = none) ∧
    (∀ (fuel : Nat) (b : ParseBuffer), 1000 ≤ b.depth → parse_object fuel b = none) ∧
    sbJSON_Parse (some (List.replicate 1001 (ch '[') ++ List.replicate 1001 (ch ']'))) =
      none ∧
    (sbJSON_Parse (some (strBytes "[[[]]]"))).isSome = true := by
  refine ⟨?_, ?_, ?_, ?_⟩
  · intro fuel b h
    cases fuel with
    | zero => rfl
    | succ fuel => simp [parse_array, h]
  · intro fuel b h
    cases fuel with
    | zero => rfl
    | succ fuel => simp [parse_object, h]
  · have hch : ch '[' = 91 := rfl
    set v : CStr := List.replicate 1001 (ch '[') ++ List.replicate 1001 (ch ']') with hv
    have hvlen : v.length = 2002 := by simp [hv]
    have hget : ∀ i, i ≤ 1000 → (v ++ [0]).getD i 0 = 91 := by
      intro i hi
      rw [hv, hch, List.append_assoc]
      exact getD_replicate_append (by omega) _
    have hclen : (v ++ [0]).length = 2003 := by simp [hvlen]
    rw [sbJSON_Parse, sbJSON_ParseWithOpts, sbJSON_ParseWithLengthOpts]
    rw [if_neg (by omega : ¬ v.length + 1 = 0)]
    simp only []
    have h0 : ParseBuffer.at' ⟨v ++ [0], v.length + 1, 0, 0⟩ 0 = 91 := by
      show (v ++ [0]).getD (0 + 0) 0 = 91
      exact hget 0 (by omega)
    have hbom : skip_utf8_bom ⟨v ++ [0], v.length + 1, 0, 0⟩ =
        ⟨v ++ [0], v.length + 1, 0, 0⟩ := by
      rw [skip_utf8_bom, if_neg (by simp [h0])]
    rw [hbom]
    have hws : buffer_skip_whitespace ⟨v ++ [0], v.length + 1, 0, 0⟩ =
        ⟨v ++ [0], v.length + 1, 0, 0⟩ := by
      apply skip_ws_id (by omega)
      rw [hget 0 (by omega)]
      decide
    rw [hws]
    have hpv : parse_value (parseFuel (v.length + 1)) ⟨v ++ [0], v.length + 1, 0, 0⟩ =
        none := by
      apply parse_value_deep_brackets _ _ 1000
      · show 1000 ≤ 0 + 1000
        omega
      · show 0 + 1000 < v.length + 1
        omega
      · show v.length + 1 ≤ (v ++ [0]).length
        omega
      · intro i hi
        show (v ++ [0]).getD (0 + i) 0 = 91
        rw [Nat.zero_add]
        exact hget i hi
    rw [hpv]
  · decide

/-- Witness for C9's universally quantified halves at a concrete buffer of
depth exactly 1000. -/
theorem c9_nesting_limit_witness :
    1000 ≤ (ParseBuffer.mk (strBytes "[1]") 4 0 1000).depth ∧
    parse_array 7 (ParseBuffer.mk (strBytes "[1]") 4 0 1000) = none ∧
    parse_object 7 (ParseBuffer.mk (strBytes "[1]") 4 0 1000) = none := by
  refine ⟨by decide,
    c9_nesting_limit_checked_before_recursion.1 7 _ (by decide),
    c9_nesting_limit_checked_before_recursion.2.1 7 _ (by decide)⟩
/-! ## Sorted member lists are fixed points of `sort_list` -/

theorem Node.setChild_self (x : Node) : x.setChild x.child = x := by
  cases x
  rfl

/-- `sort_list` leaves an already-sorted list unchanged (its first act is
the `scan_sorted` early-exit check). -/
theorem sort_list_sorted_id {l : List Node} (h : scanSorted l = true) :
    sort_list l = l := by
  match l with
  | [] => rw [sort_list]
  | [x] => rw [sort_list]
  | a :: b :: rest => rw [sort_list, if_pos h]

/-- `sort_object` leaves an object with already-sorted members unchanged. -/
theorem sort_object_id {x : Node} (h : scanSorted x.child = true) :
    sort_object x = x := by
  rw [sort_object, sort_list_sorted_id h, Node.setChild_self]

/-! ## C8: the merge-patch round-trip -/

/-- C8: the generate/apply round-trip FAILS on two equal trees:
`generate_merge_patch` returns NULL both for "no difference" and as the
member-deletion marker, and `merge_patch(target, NULL)` takes the non-object
branch and returns a duplicate of NULL — i.e. NULL.  Concretely, for
`from = to = {}` the generated patch is NULL, applying it to `from` yields
NULL instead of a tree, and the result does not compare equal to `to`. -/
theorem c8_merge_roundtrip_fails_on_equal_objects :
    (sbJSONUtils_GenerateMergePatch (some sbJSON_CreateObject)
        (some sbJSON_CreateObject)).1 = none ∧
    sbJSONUtils_MergePatch (some sbJSON_CreateObject)
        (sbJSONUtils_GenerateMergePatch (some sbJSON_CreateObject)
          (some sbJSON_CreateObject)).1 = none ∧
    sbJSON_Compare
        (sbJSONUtils_MergePatch (some sbJSON_CreateObject)
          (sbJSONUtils_GenerateMergePatch (some sbJSON_CreateObject)
            (some sbJSON_CreateObject)).1)
        (some sbJSON_CreateObject) true = false := by
  have hobj : sbJSON_IsObject (some sbJSON_CreateObject) = true := rfl
  have hscan : scanSorted sbJSON_CreateObject.child = true := rfl
  have hsort := sort_object_id hscan
  have hchild : sbJSON_CreateObject.child = [] := rfl
  have hwalk : genWalk [] [] = ([], [], []) := by rw [genWalk]
  have hgen : (sbJSONUtils_GenerateMergePatch (some sbJSON_CreateObject)
      (some sbJSON_CreateObject)).1 = none := by
    rw [sbJSONUtils_GenerateMergePatch, generate_merge_patch.eq_def]
    simp [hobj, hsort, hchild, hwalk]
  have hmerge : sbJSONUtils_MergePatch (some sbJSON_CreateObject) none = none := by
    rw [sbJSONUtils_MergePatch, merge_patch.eq_def]
    simp [sbJSON_IsObject, sbJSON_Duplicate]
  have hcmp : sbJSON_Compare none (some sbJSON_CreateObject) true = false := by
    rw [sbJSON_Compare.eq_def]
  refine ⟨hgen, ?_, ?_⟩
  · rw [hgen]
    exact hmerge
  · rw [hgen, hmerge]
    exact hcmp
